import Mathlib

/-!
# Storage repository (`store/storage.go`)

A shallow embedding of the storage repository of memos: the construction of the
four parameterised SQL statements, their execution inside one transaction per
operation, and the conversion of the rows read back into `api.Storage`.

Layout: the data model, the statement builders (pure), a reference model of the
transactional SQL interface (`database/sql` over the table `storage`), the five
exported operations, and then the theorems.
-/

namespace StorageRepo

/-! ## Data model -/

/-- The row read back from the table, `storageRaw` (storage.go, lines 13-22). -/
structure storageRaw where
  ID : Int
  Name : String
  EndPoint : String
  Region : String
  AccessKey : String
  SecretKey : String
  Bucket : String
  URLPrefix : String
  deriving DecidableEq, Repr

/-- The entity `api.Storage`; its fields are the ones `toStorage` fills
(storage.go, lines 25-34). -/
structure Storage where
  ID : Int
  Name : String
  EndPoint : String
  Region : String
  AccessKey : String
  SecretKey : String
  Bucket : String
  URLPrefix : String
  deriving DecidableEq, Repr

/-- The input `api.StorageCreate`: the seven fields `createStorageRaw` reads. -/
structure StorageCreate where
  Name : String
  EndPoint : String
  Region : String
  AccessKey : String
  SecretKey : String
  Bucket : String
  URLPrefix : String
  deriving DecidableEq, Repr

/-- The input `api.StoragePatch`: the id and seven `*string` fields, a nil
pointer being `none`. -/
structure StoragePatch where
  ID : Int
  Name : Option String
  EndPoint : Option String
  Region : Option String
  AccessKey : Option String
  SecretKey : Option String
  Bucket : Option String
  URLPrefix : Option String
  deriving DecidableEq, Repr

/-- The input `api.StorageFind`: `ID *int` and `Name *string`. -/
structure StorageFind where
  ID : Option Int
  Name : Option String
  deriving DecidableEq, Repr

/-- The input `api.StorageDelete`. -/
structure StorageDelete where
  ID : Int
  deriving DecidableEq, Repr

/-- The method `(raw *storageRaw) toStorage()` (storage.go, lines 24-35). -/
def storageRaw.toStorage (raw : storageRaw) : Storage :=
  { ID := raw.ID
    Name := raw.Name
    EndPoint := raw.EndPoint
    Region := raw.Region
    AccessKey := raw.AccessKey
    SecretKey := raw.SecretKey
    Bucket := raw.Bucket
    URLPrefix := raw.URLPrefix }

/-- A value passed as a statement argument or read from a column (Go
`interface{}` holding an `int` or a `string`). -/
inductive SqlValue where
  | int (n : Int)
  | text (s : String)
  deriving DecidableEq, Repr

/-! ## Statement builders -/

/-- Go `strings.Join(elems, sep)`. -/
def stringsJoin : List String → String → String
  | [], _ => ""
  | [a], _ => a
  | a :: b :: rest, sep => a ++ sep ++ stringsJoin (b :: rest) sep

/-- A statement as handed to the transaction: its text and its arguments. -/
structure Statement where
  query : String
  args : List SqlValue
  deriving DecidableEq, Repr

/-- The column list `set` of `createStorageRaw` (storage.go, line 134). -/
def createSet : List String :=
  ["name", "end_point", "region", "access_key", "secret_key", "bucket", "url_prefix"]

/-- The list `placeholder` of `createStorageRaw` (storage.go, line 136). -/
def createPlaceholder : List String :=
  ["?", "?", "?", "?", "?", "?", "?"]

/-- The list `args` of `createStorageRaw` (storage.go, line 135). -/
def createArgs (create : StorageCreate) : List SqlValue :=
  [.text create.Name, .text create.EndPoint, .text create.Region, .text create.AccessKey,
   .text create.SecretKey, .text create.Bucket, .text create.URLPrefix]

/-- The statement built by `createStorageRaw` (storage.go, lines 134-144). -/
def createStatement (create : StorageCreate) : Statement :=
  { query :=
      "\n\t\tINSERT INTO storage (\n\t\t\t" ++ stringsJoin createSet ", "
        ++ "\n\t\t)\n\t\tVALUES (" ++ stringsJoin createPlaceholder ","
        ++ ")\n\t\tRETURNING id, name, end_point, region, access_key, secret_key, bucket, url_prefix\n\t"
    args := createArgs create }

/-- One step `if v := patch.F; v != nil { set, args = append(..), append(..) }`
of `patchStorageRaw`. -/
def patchField (clause : String) (v : Option String)
    (acc : List String × List SqlValue) : List String × List SqlValue :=
  match v with
  | some s => (acc.1 ++ [clause], acc.2 ++ [.text s])
  | none => acc

/-- The lists `set` and `args` of `patchStorageRaw` after line 186: the seven
conditional appends in source order, then `patch.ID`. -/
def patchSetArgs (patch : StoragePatch) : List String × List SqlValue :=
  let acc : List String × List SqlValue := ([], [])
  let acc := patchField "name = ?" patch.Name acc
  let acc := patchField "end_point = ?" patch.EndPoint acc
  let acc := patchField "region = ?" patch.Region acc
  let acc := patchField "access_key = ?" patch.AccessKey acc
  let acc := patchField "secret_key = ?" patch.SecretKey acc
  let acc := patchField "bucket = ?" patch.Bucket acc
  let acc := patchField "url_prefix = ?" patch.URLPrefix acc
  (acc.1, acc.2 ++ [.int patch.ID])

/-- The statement built by `patchStorageRaw` (storage.go, lines 163-193). -/
def patchStatement (patch : StoragePatch) : Statement :=
  { query :=
      "\n\t\tUPDATE storage\n\t\tSET " ++ stringsJoin (patchSetArgs patch).1 ", "
        ++ "\n\t\tWHERE id = ?\n\t\tRETURNING id, name, end_point, region, access_key, secret_key, bucket, url_prefix\n\t"
    args := (patchSetArgs patch).2 }

/-- The lists `where` and `args` of `findStorageRawList` (storage.go, lines
213-220). -/
def findWhereArgs (find : StorageFind) : List String × List SqlValue :=
  let acc : List String × List SqlValue := (["1 = 1"], [])
  let acc := match find.ID with
    | some v => (acc.1 ++ ["id = ?"], acc.2 ++ [SqlValue.int v])
    | none => acc
  let acc := match find.Name with
    | some v => (acc.1 ++ ["name = ?"], acc.2 ++ [SqlValue.text v])
    | none => acc
  acc

/-- The statement built by `findStorageRawList` (storage.go, lines 213-235). -/
def findStatement (find : StorageFind) : Statement :=
  { query :=
      "\n\t\tSELECT\n\t\t\tid, \n\t\t\tname, \n\t\t\tend_point, \n\t\t\tregion,\n\t\t\taccess_key, \n\t\t\tsecret_key, \n\t\t\tbucket,\n\t\t\turl_prefix\n\t\tFROM storage\n\t\tWHERE "
        ++ stringsJoin (findWhereArgs find).1 " AND "
        ++ "\n\t\tORDER BY id DESC\n\t"
    args := (findWhereArgs find).2 }

/-- The statement built by `deleteStorage` (storage.go, lines 269-271). -/
def deleteStatement (delete : StorageDelete) : Statement :=
  { query := "DELETE FROM storage WHERE " ++ stringsJoin ["id = ?"] " AND "
    args := [.int delete.ID] }

/-! ## Errors -/

/-- Modelled from the spec: `common.Code` is declared in package `common`,
outside store/storage.go. The spec's taxonomy has two kinds, NotFound and the
generic store error (the "generic internal-error kind"). -/
inductive Code where
  | NotFound
  | Internal
  deriving DecidableEq, Repr

/-- The errors of `database/sql` the repository can meet: `sql.ErrNoRows`
(returned by `Row.Scan` when the query gave no row, and by nothing else),
`sql.ErrTxDone`, and any other failure reported by the driver. -/
inductive SqlErr where
  | ErrNoRows
  | ErrTxDone
  | driver (msg : String)
  deriving DecidableEq, Repr

/-- A non-nil Go `error` value as it flows through this file: an error of
`database/sql`, or a `*common.Error` with its `Code` and the text of its `Err`. -/
inductive GoError where
  | sql (e : SqlErr)
  | common (code : Code) (msg : String)
  deriving DecidableEq, Repr

/-- The kind of an error: the `Code` of a `*common.Error`; an error of
`database/sql` that was never classified has none. -/
def GoError.kind : GoError → Option Code
  | .sql _ => none
  | .common code _ => some code

/-- Modelled from the spec: `FormatError` is defined in another file of
package `store`. The spec describes it as the single pure function from a raw error to a
domain error kind: a database-layer error becomes the generic internal kind,
except the "no rows" condition, which is classified as NotFound. An error that
already carries a kind keeps it. Every call in storage.go is guarded by
`err != nil`, so the function is given on non-nil errors. -/
def FormatError : GoError → GoError
  | .sql .ErrNoRows => .common .NotFound "not found"
  | .sql .ErrTxDone => .common .Internal "sql: transaction has already been committed or rolled back"
  | .sql (.driver msg) => .common .Internal msg
  | .common code msg => .common code msg

/-! ## Reference model of the store

The repository talks to `database/sql`; the engine behind it is not part of the
repository. What follows is a reference semantics for the fragment of SQL the
four statements use, over the single table `storage`: the statement text is
split into tokens, recognised, bound to its positional arguments and run on
the rows. -/

/-- A row of the table `storage` (columns `id`, `name`, `end_point`, `region`,
`access_key`, `secret_key`, `bucket`, `url_prefix`). -/
structure Row where
  id : Int
  name : String
  endPoint : String
  region : String
  accessKey : String
  secretKey : String
  bucket : String
  urlPrefix : String
  deriving DecidableEq, Repr

/-- The table: its rows in insertion order and the largest id ever assigned
(the id column is an auto-assigned primary key). -/
structure Table where
  rows : List Row
  seq : Int
  deriving DecidableEq, Repr

/-- The primary-key constraint: ids are pairwise different and none exceeds the
largest id ever assigned. -/
def Table.WellFormed (t : Table) : Prop :=
  (t.rows.map Row.id).Nodup ∧ ∀ r ∈ t.rows, r.id ≤ t.seq

/-- Reading a column by name. -/
def Row.get (r : Row) (col : String) : Option SqlValue :=
  if col = "id" then some (.int r.id)
  else if col = "name" then some (.text r.name)
  else if col = "end_point" then some (.text r.endPoint)
  else if col = "region" then some (.text r.region)
  else if col = "access_key" then some (.text r.accessKey)
  else if col = "secret_key" then some (.text r.secretKey)
  else if col = "bucket" then some (.text r.bucket)
  else if col = "url_prefix" then some (.text r.urlPrefix)
  else none

/-- Writing a text column by name; `none` for an unknown column, for the key
column and for a value that is not text. -/
def Row.set (r : Row) (col : String) (v : SqlValue) : Option Row :=
  match v with
  | .int _ => none
  | .text s =>
    if col = "name" then some { r with name := s }
    else if col = "end_point" then some { r with endPoint := s }
    else if col = "region" then some { r with region := s }
    else if col = "access_key" then some { r with accessKey := s }
    else if col = "secret_key" then some { r with secretKey := s }
    else if col = "bucket" then some { r with bucket := s }
    else if col = "url_prefix" then some { r with urlPrefix := s }
    else none

/-- Writing several columns, left to right. -/
def Row.setAll (r : Row) : List (String × SqlValue) → Option Row
  | [] => some r
  | (col, v) :: rest => (r.set col v).bind (fun r1 => Row.setAll r1 rest)

/-- The values of the named columns of a row, in the order asked. -/
def Row.project (r : Row) (cols : List String) : Option (List SqlValue) :=
  cols.mapM r.get

/-- White space between tokens. -/
def isSpaceChar (c : Char) : Bool := " \n\t\r".toList.contains c

/-- Characters that are a token of their own. -/
def isPunctChar (c : Char) : Bool := ",()=?".toList.contains c

/-- The pending word, if any, as a token. -/
def flushWord (cur : List Char) : List String :=
  if cur.isEmpty then [] else [String.mk cur]

/-- Splitting the characters of a statement into tokens; `cur` is the word
being read. -/
def tokenizeAux : List Char → List Char → List String
  | [], cur => flushWord cur
  | c :: cs, cur =>
    if isSpaceChar c then flushWord cur ++ tokenizeAux cs []
    else if isPunctChar c then flushWord cur ++ [String.mk [c]] ++ tokenizeAux cs []
    else tokenizeAux cs (cur ++ [c])

/-- The tokens of a statement text. -/
def tokenize (q : String) : List String := tokenizeAux q.toList []

/-- The tokens before the first occurrence of `kw` and the tokens after it. -/
def breakOn (kw : String) : List String → Option (List String × List String)
  | [] => none
  | t :: ts =>
    if t = kw then some ([], ts)
    else (breakOn kw ts).map (fun p => (t :: p.1, p.2))

/-- The groups of tokens between occurrences of `sep` (one group more than
there are separators). -/
def splitOnTok (sep : String) : List String → List (List String)
  | [] => [[]]
  | t :: ts =>
    match splitOnTok sep ts with
    | [] => [[t]]
    | g :: gs => if t = sep then [] :: g :: gs else (t :: g) :: gs

/-- A column name: letters, digits and underscores, not starting with a digit. -/
def isIdent (t : String) : Bool :=
  match t.toList with
  | [] => false
  | c :: cs => !c.isDigit && (c :: cs).all (fun d => d.isAlphanum || "_".toList.contains d)

/-- A conjunct of a WHERE clause: the constant `1 = 1`, or `col = ?`. -/
inductive Cond where
  | always
  | eqParam (col : String)
  deriving DecidableEq, Repr

/-- The statements of the fragment. -/
inductive Stmt where
  | insert (cols : List String) (values : Nat) (returning : List String)
  | update (set : List String) (cond : List Cond) (returning : List String)
  | select (cols : List String) (cond : List Cond)
  | delete (cond : List Cond)
  deriving DecidableEq, Repr

/-- A comma-separated list of column names. -/
def parseCols (ts : List String) : Option (List String) :=
  (splitOnTok "," ts).mapM (fun g =>
    match g with
    | [c] => if isIdent c then some c else none
    | _ => none)

/-- A comma-separated list of `?`, giving their number. -/
def parseMarks (ts : List String) : Option Nat :=
  ((splitOnTok "," ts).mapM (fun g =>
    match g with
    | [m] => if m = "?" then some () else none
    | _ => none)).map List.length

/-- A comma-separated list of assignments `col = ?`, giving the columns. -/
def parseAssigns (ts : List String) : Option (List String) :=
  (splitOnTok "," ts).mapM (fun g =>
    match g with
    | [c, e, m] => if isIdent c && e = "=" && m = "?" then some c else none
    | _ => none)

/-- A conjunction of `1 = 1` and `col = ?`, joined by AND. -/
def parseConds (ts : List String) : Option (List Cond) :=
  (splitOnTok "AND" ts).mapM (fun g =>
    match g with
    | [c, e, m] =>
      if c = "1" && e = "=" && m = "1" then some Cond.always
      else if isIdent c && e = "=" && m = "?" then some (Cond.eqParam c)
      else none
    | _ => none)

/-- Recognising a statement of the fragment from its tokens; `none` is a
syntax error. -/
def parseStmt (ts : List String) : Option Stmt :=
  match ts with
  | "INSERT" :: "INTO" :: "storage" :: "(" :: rest => do
    let (colToks, rest) ← breakOn ")" rest
    match rest with
    | "VALUES" :: "(" :: rest => do
      let (markToks, rest) ← breakOn ")" rest
      match rest with
      | "RETURNING" :: retToks =>
        some (.insert (← parseCols colToks) (← parseMarks markToks) (← parseCols retToks))
      | _ => none
    | _ => none
  | "UPDATE" :: "storage" :: "SET" :: rest => do
    let (setToks, rest) ← breakOn "WHERE" rest
    let (condToks, retToks) ← breakOn "RETURNING" rest
    some (.update (← parseAssigns setToks) (← parseConds condToks) (← parseCols retToks))
  | "SELECT" :: rest => do
    let (colToks, rest) ← breakOn "FROM" rest
    match rest with
    | "storage" :: "WHERE" :: rest => do
      let (condToks, rest) ← breakOn "ORDER" rest
      if rest = ["BY", "id", "DESC"] then
        some (.select (← parseCols colToks) (← parseConds condToks))
      else none
    | _ => none
  | "DELETE" :: "FROM" :: "storage" :: "WHERE" :: condToks => do
    some (.delete (← parseConds condToks))
  | _ => none

/-- The columns of the table. -/
def columns : List String :=
  ["id", "name", "end_point", "region", "access_key", "secret_key", "bucket", "url_prefix"]

/-- Binding the `?` of a list of assigned columns to the arguments, left to
right; gives the pairs and the arguments left over, `none` when the arguments
run out. -/
def bindCols : List String → List SqlValue → Option (List (String × SqlValue) × List SqlValue)
  | [], args => some ([], args)
  | _ :: _, [] => none
  | c :: cs, a :: args => (bindCols cs args).map (fun p => ((c, a) :: p.1, p.2))

/-- Binding the `?` of a WHERE clause to the arguments, left to right; the
constant conjunct `1 = 1` binds nothing. -/
def bindConds : List Cond → List SqlValue → Option (List (String × SqlValue) × List SqlValue)
  | [], args => some ([], args)
  | .always :: cs, args => bindConds cs args
  | .eqParam _ :: _, [] => none
  | .eqParam c :: cs, a :: args => (bindConds cs args).map (fun p => ((c, a) :: p.1, p.2))

/-- A row satisfies a conjunction of equalities `col = value`. -/
def Row.satisfies (r : Row) (eqs : List (String × SqlValue)) : Bool :=
  eqs.all (fun p => r.get p.1 == some p.2)

/-- The order of `ORDER BY id DESC`: larger id first. -/
def idDesc (a b : Row) : Prop := b.id ≤ a.id

instance : DecidableRel idDesc := fun a b => inferInstanceAs (Decidable (b.id ≤ a.id))

/-- What running a statement gives: the result rows, the number of rows
affected and the table afterwards. -/
structure ExecResult where
  rows : List (List SqlValue)
  affected : Nat
  table : Table
  deriving DecidableEq, Repr

/-- The error for a statement the store rejects. -/
def stmtError (msg : String) : Except SqlErr ExecResult := .error (.driver msg)

/-- Running a recognised statement with its arguments on a table. -/
def runStmt (t : Table) (st : Stmt) (args : List SqlValue) : Except SqlErr ExecResult :=
  match st with
  | .insert cols values returning =>
    if cols.length ≠ values then stmtError "values for columns mismatch"
    else match bindCols cols args with
      | some (asg, []) =>
        let fresh : Row :=
          { id := t.seq + 1, name := "", endPoint := "", region := "", accessKey := "",
            secretKey := "", bucket := "", urlPrefix := "" }
        match fresh.setAll asg with
        | none => stmtError "no such column or datatype mismatch"
        | some row =>
          match row.project returning with
          | none => stmtError "no such column"
          | some out =>
            .ok { rows := [out], affected := 1
                  table := { rows := t.rows ++ [row], seq := t.seq + 1 } }
      | _ => stmtError "wrong number of arguments"
  | .update set cond returning =>
    match bindCols set args with
    | none => stmtError "wrong number of arguments"
    | some (asg, rest) =>
      match bindConds cond rest with
      | some (eqs, []) =>
        if !(eqs.all (fun p => columns.contains p.1)) then stmtError "no such column"
        else
          match t.rows.mapM (fun r => if r.satisfies eqs then r.setAll asg else some r),
                (t.rows.filter (fun r => r.satisfies eqs)).mapM
                  (fun r => (r.setAll asg).bind (fun r1 => r1.project returning)) with
          | some rows1, some out =>
            .ok { rows := out, affected := out.length, table := { t with rows := rows1 } }
          | _, _ => stmtError "no such column or datatype mismatch"
      | _ => stmtError "wrong number of arguments"
  | .select cols cond =>
    match bindConds cond args with
    | some (eqs, []) =>
      if !(eqs.all (fun p => columns.contains p.1)) then stmtError "no such column"
      else
        match ((t.rows.filter (fun r => r.satisfies eqs)).insertionSort idDesc).mapM
                (fun r => r.project cols) with
        | some out => .ok { rows := out, affected := 0, table := t }
        | none => stmtError "no such column"
    | _ => stmtError "wrong number of arguments"
  | .delete cond =>
    match bindConds cond args with
    | some (eqs, []) =>
      if !(eqs.all (fun p => columns.contains p.1)) then stmtError "no such column"
      else
        .ok { rows := [], affected := (t.rows.filter (fun r => r.satisfies eqs)).length
              table := { t with rows := t.rows.filter (fun r => !r.satisfies eqs) } }
    | _ => stmtError "wrong number of arguments"

/-- Running a statement text: a text that is not recognised is a syntax error. -/
def runQuery (t : Table) (query : String) (args : List SqlValue) : Except SqlErr ExecResult :=
  match parseStmt (tokenize query) with
  | none => stmtError "syntax error"
  | some st => runStmt t st args

/-! ## Transactions -/

/-- Failures of the store that do not come from the statement itself
(connectivity loss, cancellation, ...), fixed for one run: each is the text of
the driver error, when that step fails. `scan` names the index of the row
whose `Scan` fails. -/
structure Faults where
  beginTx : Option String
  statement : Option String
  scan : Option (Nat × String)
  rowsErr : Option String
  rowsAffected : Option String
  commit : Option String
  deriving DecidableEq, Repr

/-- No failure. -/
def noFaults : Faults :=
  { beginTx := .none, statement := .none, scan := .none, rowsErr := .none,
    rowsAffected := .none, commit := .none }

/-- The store `s.db` an operation is run against: the committed table and the
failures of this run. -/
structure Store where
  table : Table
  faults : Faults
  deriving DecidableEq, Repr

/-- A call made on the transaction. -/
inductive TxCall where
  | QueryRowContext (query : String) (args : List SqlValue)
  | QueryContext (query : String) (args : List SqlValue)
  | ExecContext (query : String) (args : List SqlValue)
  | Commit
  | Rollback
  deriving DecidableEq, Repr

/-- A transaction `*sql.Tx`: the table as committed, the table as the
transaction sees it, whether the transaction is over, and the calls made on it
so far, oldest first. -/
structure Tx where
  committed : Table
  work : Table
  done : Bool
  faults : Faults
  calls : List TxCall
  deriving DecidableEq, Repr

/-- The call `s.db.BeginTx(ctx, nil)`. -/
def Store.BeginTx (s : Store) : Except SqlErr Tx :=
  match s.faults.beginTx with
  | some msg => .error (.driver msg)
  | .none =>
    .ok { committed := s.table, work := s.table, done := false, faults := s.faults, calls := [] }

/-- Running one statement inside the transaction, the call being recorded. -/
def Tx.run (tx : Tx) (call : TxCall) (query : String) (args : List SqlValue) :
    Except SqlErr ExecResult × Tx :=
  let tx1 := { tx with calls := tx.calls ++ [call] }
  if tx.done then (.error .ErrTxDone, tx1)
  else match tx.faults.statement with
    | some msg => (.error (.driver msg), tx1)
    | .none =>
      match runQuery tx.work query args with
      | .error e => (.error e, tx1)
      | .ok res => (.ok res, { tx1 with work := res.table })

/-- The call `tx.QueryRowContext(ctx, query, args...)`: a `*sql.Row`, which
holds the error of the query, if any, until `Scan`. -/
def Tx.QueryRowContext (tx : Tx) (query : String) (args : List SqlValue) :
    Except SqlErr (List (List SqlValue)) × Tx :=
  let (res, tx1) := tx.run (.QueryRowContext query args) query args
  (res.map ExecResult.rows, tx1)

/-- The call `tx.QueryContext(ctx, query, args...)`. -/
def Tx.QueryContext (tx : Tx) (query : String) (args : List SqlValue) :
    Except SqlErr (List (List SqlValue)) × Tx :=
  let (res, tx1) := tx.run (.QueryContext query args) query args
  (res.map ExecResult.rows, tx1)

/-- A `sql.Result`: what `RowsAffected()` returns, the count and the error. -/
structure Result where
  RowsAffected : Int × Option SqlErr
  deriving DecidableEq, Repr

/-- The call `tx.ExecContext(ctx, stmt, args...)`. -/
def Tx.ExecContext (tx : Tx) (query : String) (args : List SqlValue) :
    Except SqlErr Result × Tx :=
  let (res, tx1) := tx.run (.ExecContext query args) query args
  (res.map (fun r =>
    match tx.faults.rowsAffected with
    | some msg => { RowsAffected := (0, some (.driver msg)) }
    | .none => { RowsAffected := ((r.affected : Int), .none) }), tx1)

/-- The call `tx.Commit()`: on success the table the transaction sees becomes
the committed one; the transaction is over either way. -/
def Tx.Commit (tx : Tx) : Option SqlErr × Tx :=
  let tx1 := { tx with calls := tx.calls ++ [.Commit] }
  if tx.done then (some .ErrTxDone, tx1)
  else match tx.faults.commit with
    | some msg => (some (.driver msg), { tx1 with done := true, work := tx.committed })
    | .none => (.none, { tx1 with done := true, committed := tx.work })

/-- The call `tx.Rollback()`: the changes of an open transaction are dropped;
on a transaction that is over it only reports `sql.ErrTxDone`. -/
def Tx.Rollback (tx : Tx) : Option SqlErr × Tx :=
  let tx1 := { tx with calls := tx.calls ++ [.Rollback] }
  if tx.done then (some .ErrTxDone, tx1)
  else (.none, { tx1 with done := true, work := tx.committed })

/-- Reading the eight values of a row into the destinations `&storageRaw.ID`,
`&storageRaw.Name`, `&storageRaw.EndPoint`, `&storageRaw.Region`,
`&storageRaw.AccessKey`, `&storageRaw.SecretKey`, `&storageRaw.Bucket`,
`&storageRaw.URLPrefix`, in this order (storage.go, lines 147-154, 197-204 and
246-253). A wrong number of values or a value of the other kind is an error. -/
def scanStorageRaw (vals : List SqlValue) : Except SqlErr storageRaw :=
  match vals with
  | [.int v0, .text v1, .text v2, .text v3, .text v4, .text v5, .text v6, .text v7] =>
    .ok { ID := v0, Name := v1, EndPoint := v2, Region := v3, AccessKey := v4,
          SecretKey := v5, Bucket := v6, URLPrefix := v7 }
  | _ => .error (.driver "sql: Scan error")

/-- The `Scan` of row number `i` of a result. -/
def scanAt (faults : Faults) (i : Nat) (vals : List SqlValue) : Except SqlErr storageRaw :=
  match faults.scan with
  | some (k, msg) => if k = i then .error (.driver msg) else scanStorageRaw vals
  | .none => scanStorageRaw vals

/-- The method `(*sql.Row).Scan`: the error of the query if it failed,
`sql.ErrNoRows` if it gave no row, else the first row read. -/
def rowScan (faults : Faults) (row : Except SqlErr (List (List SqlValue))) :
    Except SqlErr storageRaw :=
  match row with
  | .error e => .error e
  | .ok [] => .error .ErrNoRows
  | .ok (vals :: _) => scanAt faults 0 vals

/-! ## The repository

Every function below takes the error-mapping helper as its first argument
`fmt`: storage.go calls `FormatError`, which it does not define. -/

/-- The function `createStorageRaw` (storage.go, lines 133-160). -/
def createStorageRaw (fmt : GoError → GoError) (tx : Tx) (create : StorageCreate) :
    Except GoError storageRaw × Tx :=
  let st := createStatement create
  let (row, tx) := tx.QueryRowContext st.query st.args
  match rowScan tx.faults row with
  | .error err => (.error (fmt (.sql err)), tx)
  | .ok raw => (.ok raw, tx)

/-- The function `patchStorageRaw` (storage.go, lines 162-210). -/
def patchStorageRaw (fmt : GoError → GoError) (tx : Tx) (patch : StoragePatch) :
    Except GoError storageRaw × Tx :=
  let st := patchStatement patch
  let (row, tx) := tx.QueryRowContext st.query st.args
  match rowScan tx.faults row with
  | .error err => (.error (fmt (.sql err)), tx)
  | .ok raw => (.ok raw, tx)

/-- The loop `for rows.Next() { ... }` of `findStorageRawList` (storage.go,
lines 243-259): `i` is the index of the next row, `acc` is `storageRawList`. -/
def scanLoop (fmt : GoError → GoError) (faults : Faults) :
    Nat → List (List SqlValue) → List storageRaw → Except GoError (List storageRaw)
  | _, [], acc => .ok acc
  | i, vals :: rest, acc =>
    match scanAt faults i vals with
    | .error err => .error (fmt (.sql err))
    | .ok raw => scanLoop fmt faults (i + 1) rest (acc ++ [raw])

/-- The function `findStorageRawList` (storage.go, lines 212-266). -/
def findStorageRawList (fmt : GoError → GoError) (tx : Tx) (find : StorageFind) :
    Except GoError (List storageRaw) × Tx :=
  let st := findStatement find
  let (rows, tx) := tx.QueryContext st.query st.args
  match rows with
  | .error err => (.error (fmt (.sql err)), tx)
  | .ok rows =>
    match scanLoop fmt tx.faults 0 rows [] with
    | .error err => (.error err, tx)
    | .ok storageRawList =>
      match tx.faults.rowsErr with
      | some msg => (.error (fmt (.sql (.driver msg))), tx)
      | .none => (.ok storageRawList, tx)

/-- The function `deleteStorage` (storage.go, lines 268-283); `none` is the
nil error. The error of `RowsAffected()` is dropped, as in the source. -/
def deleteStorage (fmt : GoError → GoError) (tx : Tx) (delete : StorageDelete) :
    Option GoError × Tx :=
  let st := deleteStatement delete
  let (result, tx) := tx.ExecContext st.query st.args
  match result with
  | .error err => (some (fmt (.sql err)), tx)
  | .ok result =>
    let rows := result.RowsAffected.1
    if rows = 0 then (some (.common .NotFound "storage not found"), tx)
    else (.none, tx)

/-- What a call of an exported operation leaves behind: the value or the error
returned, the committed table afterwards, and the calls made on the
transaction, oldest first (none when the transaction could not be begun). -/
structure Outcome (α : Type) where
  ret : Except GoError α
  table : Table
  calls : List TxCall

/-- Returning `ret` from an operation that has begun `tx`: the deferred
`tx.Rollback()` runs, its result dropped, and the operation returns. -/
def returning {α : Type} (tx : Tx) (ret : Except GoError α) : Outcome α :=
  let (_, tx) := tx.Rollback
  { ret := ret, table := tx.committed, calls := tx.calls }

/-- The method `Store.CreateStorage` (storage.go, lines 37-54). -/
def CreateStorage (fmt : GoError → GoError) (s : Store) (create : StorageCreate) :
    Outcome Storage :=
  match s.BeginTx with
  | .error err => { ret := .error (fmt (.sql err)), table := s.table, calls := [] }
  | .ok tx =>
    let (r, tx) := createStorageRaw fmt tx create
    match r with
    | .error err => returning tx (.error err)
    | .ok storageRaw =>
      let (cerr, tx) := tx.Commit
      match cerr with
      | some err => returning tx (.error (fmt (.sql err)))
      | .none => returning tx (.ok storageRaw.toStorage)

/-- The method `Store.PatchStorage` (storage.go, lines 56-73). -/
def PatchStorage (fmt : GoError → GoError) (s : Store) (patch : StoragePatch) :
    Outcome Storage :=
  match s.BeginTx with
  | .error err => { ret := .error (fmt (.sql err)), table := s.table, calls := [] }
  | .ok tx =>
    let (r, tx) := patchStorageRaw fmt tx patch
    match r with
    | .error err => returning tx (.error err)
    | .ok storageRaw =>
      let (cerr, tx) := tx.Commit
      match cerr with
      | some err => returning tx (.error (fmt (.sql err)))
      | .none => returning tx (.ok storageRaw.toStorage)

/-- The method `Store.FindStorageList` (storage.go, lines 75-93); the loop
appends `raw.toStorage()` for each element, in order. -/
def FindStorageList (fmt : GoError → GoError) (s : Store) (find : StorageFind) :
    Outcome (List Storage) :=
  match s.BeginTx with
  | .error err => { ret := .error (fmt (.sql err)), table := s.table, calls := [] }
  | .ok tx =>
    let (r, tx) := findStorageRawList fmt tx find
    match r with
    | .error err => returning tx (.error err)
    | .ok storageRawList =>
      let list := storageRawList.foldl (fun list raw => list ++ [raw.toStorage]) []
      returning tx (.ok list)

/-- The method `Store.FindStorage` (storage.go, lines 95-113). -/
def FindStorage (fmt : GoError → GoError) (s : Store) (find : StorageFind) :
    Outcome Storage :=
  match s.BeginTx with
  | .error err => { ret := .error (fmt (.sql err)), table := s.table, calls := [] }
  | .ok tx =>
    let (r, tx) := findStorageRawList fmt tx find
    match r with
    | .error err => returning tx (.error err)
    | .ok list =>
      match list with
      | [] => returning tx (.error (.common .NotFound "not found"))
      | storageRaw :: _ => returning tx (.ok storageRaw.toStorage)

/-- The method `Store.DeleteStorage` (storage.go, lines 115-131). -/
def DeleteStorage (fmt : GoError → GoError) (s : Store) (delete : StorageDelete) :
    Outcome Unit :=
  match s.BeginTx with
  | .error err => { ret := .error (fmt (.sql err)), table := s.table, calls := [] }
  | .ok tx =>
    let (derr, tx) := deleteStorage fmt tx delete
    match derr with
    | some err => returning tx (.error (fmt err))
    | .none =>
      let (cerr, tx) := tx.Commit
      match cerr with
      | some err => returning tx (.error (fmt (.sql err)))
      | .none => returning tx (.ok ())

/-! ## The statements as the specification words them -/

/-- The seven optional fields of a patch with their columns, in the fixed order
name, end_point, region, access_key, secret_key, bucket, url_prefix. -/
def patchFields (patch : StoragePatch) : List (String × Option String) :=
  [("name", patch.Name), ("end_point", patch.EndPoint), ("region", patch.Region),
   ("access_key", patch.AccessKey), ("secret_key", patch.SecretKey),
   ("bucket", patch.Bucket), ("url_prefix", patch.URLPrefix)]

/-- The specification's SET clause: one assignment `col = ?` for each field that
is present, in the fixed order. -/
def presentAssignments (patch : StoragePatch) : List String :=
  (patchFields patch).filterMap (fun p => p.2.map (fun _ => p.1 ++ " = ?"))

/-- The specification's argument values: the values of the fields that are
present, in the fixed order. -/
def presentValues (patch : StoragePatch) : List SqlValue :=
  (patchFields patch).filterMap (fun p => p.2.map SqlValue.text)

/-- Which fields of a patch are present. -/
def StoragePatch.present (patch : StoragePatch) : List Bool :=
  [patch.Name.isSome, patch.EndPoint.isSome, patch.Region.isSome, patch.AccessKey.isSome,
   patch.SecretKey.isSome, patch.Bucket.isSome, patch.URLPrefix.isSome]

/-- Which filters of a find are present. -/
def StorageFind.present (find : StorageFind) : List Bool :=
  [find.ID.isSome, find.Name.isSome]

/-- The specification's WHERE conjuncts: the base predicate, then `id = ?` and
`name = ?` for the filters that are present. -/
def presentConjuncts (find : StorageFind) : List String :=
  "1 = 1" :: ((find.ID.map (fun _ => "id = ?")).toList
    ++ (find.Name.map (fun _ => "name = ?")).toList)

/-- The number of `?` in a statement text. -/
def countMarks (q : String) : Nat := q.toList.count '?'

/-- What is asked of one run of an operation on the store `s` whose transaction
was begun, `stmtFailed` saying that the statement or the reading of its rows
failed: a failed statement or a failed commit gives an error and no value; no
commit is called after a failed statement; the last call on the transaction is
the rollback; and a run that returns an error leaves the table as it was. -/
def FailedRunAborts {α : Type} (s : Store) (stmtFailed : Prop) (o : Outcome α) : Prop :=
  (stmtFailed ∨ (TxCall.Commit ∈ o.calls ∧ s.faults.commit ≠ none) → ∃ e, o.ret = .error e)
    ∧ (stmtFailed → TxCall.Commit ∉ o.calls)
    ∧ o.calls.getLast? = some TxCall.Rollback
    ∧ ((∃ e, o.ret = .error e) → o.table = s.table)

/-- The single-row read of `createStorageRaw` and `patchStorageRaw` fails in the
store: `(*sql.Row).Scan` on the result of `QueryRowContext` returns an error,
because the statement failed, or it gave no row, or the `Scan` of its row
failed. -/
def RowReadFails (tx : Tx) (st : Statement) : Prop :=
  ∃ e, rowScan tx.faults (tx.QueryRowContext st.query st.args).1 = .error e

/-- The multi-row read of `findStorageRawList` fails in the store: the call
`QueryContext` returns an error, or it returns rows and the `Scan` of one of
them, the row of some index `i`, returns an error, or it returns rows and
`rows.Err()` is not nil. -/
def RowsReadFail (tx : Tx) (st : Statement) : Prop :=
  (∃ e, (tx.QueryContext st.query st.args).1 = .error e)
    ∨ (∃ rows, (tx.QueryContext st.query st.args).1 = .ok rows
        ∧ ((∃ i vals e, rows.get? i = some vals ∧ scanAt tx.faults i vals = .error e)
            ∨ tx.faults.rowsErr ≠ none))

/-- The statement of `deleteStorage` fails in the store: the call `ExecContext`
returns an error. -/
def ExecFails (tx : Tx) (st : Statement) : Prop :=
  ∃ e, (tx.ExecContext st.query st.args).1 = .error e

/-- A table with the rows of ids 1, 2 and 3, inserted in this order. -/
def sampleTable : Table :=
  { rows :=
      [{ id := 1, name := "s3", endPoint := "https://s3.example.com", region := "us-east-1",
         accessKey := "AK", secretKey := "SK", bucket := "assets",
         urlPrefix := "https://cdn.example.com/" },
       { id := 2, name := "b", endPoint := "e2", region := "r2", accessKey := "a2",
         secretKey := "k2", bucket := "b2", urlPrefix := "u2" },
       { id := 3, name := "c", endPoint := "e3", region := "r3", accessKey := "a3",
         secretKey := "k3", bucket := "b3", urlPrefix := "u3" }]
    seq := 3 }

/-- The sample table behind a store without failures. -/
def sampleStore : Store := { table := sampleTable, faults := noFaults }

/-- The sample table behind a store whose statements fail. -/
def faultyStore : Store :=
  { table := sampleTable, faults := { noFaults with statement := some "connection lost" } }

/-- The sample table behind a store where the `Scan` of the second row read
fails. -/
def scanFaultyStore : Store :=
  { table := sampleTable, faults := { noFaults with scan := some (1, "scan failed") } }

/-- The sample table behind a store where `rows.Err()` reports an error after
the rows were read. -/
def rowsErrStore : Store :=
  { table := sampleTable, faults := { noFaults with rowsErr := some "rows broken" } }

/-- The sample table behind a store whose commits fail. -/
def commitFaultyStore : Store :=
  { table := sampleTable, faults := { noFaults with commit := some "commit refused" } }

/-- The transaction `BeginTx` gives on a store. -/
def Store.freshTx (s : Store) : Tx :=
  { committed := s.table, work := s.table, done := false, faults := s.faults, calls := [] }

/-- The columns of the fields of a patch that are present, in the fixed order. -/
def presentColumns (patch : StoragePatch) : List String :=
  (patchFields patch).filterMap (fun p => p.2.map (fun _ => p.1))

/-- The row the store inserts for a create input when it assigns the id `id`. -/
def insertedRow (id : Int) (create : StorageCreate) : Row :=
  { id := id, name := create.Name, endPoint := create.EndPoint, region := create.Region
    accessKey := create.AccessKey, secretKey := create.SecretKey, bucket := create.Bucket
    urlPrefix := create.URLPrefix }

/-- The entity with the id `id` and the seven fields of a create input. -/
def createdStorage (id : Int) (create : StorageCreate) : Storage :=
  { ID := id, Name := create.Name, EndPoint := create.EndPoint, Region := create.Region
    AccessKey := create.AccessKey, SecretKey := create.SecretKey, Bucket := create.Bucket
    URLPrefix := create.URLPrefix }

instance : IsTotal Row idDesc := ⟨fun a b => Int.le_total b.id a.id⟩

instance : IsTrans Row idDesc := ⟨fun _ _ _ hab hbc => Int.le_trans hbc hab⟩

/-- A row satisfies the filters of a find that are present. -/
def StorageFind.admits (find : StorageFind) (r : Row) : Bool :=
  (match find.ID with
    | some v => decide (r.id = v)
    | none => true)
  && (match find.Name with
    | some v => decide (r.name = v)
    | none => true)

/-- The entity of a row of the table, field for field. -/
def Row.toStorage (r : Row) : Storage :=
  { ID := r.id, Name := r.name, EndPoint := r.endPoint, Region := r.region
    AccessKey := r.accessKey, SecretKey := r.secretKey, Bucket := r.bucket
    URLPrefix := r.urlPrefix }

/-- The `storageRaw` read from a row of the table, field for field. -/
def Row.toRaw (r : Row) : storageRaw :=
  { ID := r.id, Name := r.name, EndPoint := r.endPoint, Region := r.region
    AccessKey := r.accessKey, SecretKey := r.secretKey, Bucket := r.bucket
    URLPrefix := r.urlPrefix }

/-- The eight column values of a row, in the order of the table. -/
def Row.values (r : Row) : List SqlValue :=
  [.int r.id, .text r.name, .text r.endPoint, .text r.region, .text r.accessKey,
   .text r.secretKey, .text r.bucket, .text r.urlPrefix]

/-- The conjuncts the store recognises in the WHERE clause of a find. -/
def findConds (find : StorageFind) : List Cond :=
  .always :: ((find.ID.map (fun _ => Cond.eqParam "id")).toList
    ++ (find.Name.map (fun _ => Cond.eqParam "name")).toList)

/-- The rows a find selects, largest id first. -/
def selectedRows (t : Table) (find : StorageFind) : List Row :=
  (t.rows.filter find.admits).insertionSort idDesc

/-! ## Statement builders -/

theorem patchField_fst (cl : String) (v : Option String) (acc : List String × List SqlValue) :
    (patchField cl v acc).1 = acc.1 ++ (v.map (fun _ => cl)).toList := by
  cases v <;> simp [patchField]

theorem mem_patch_set (patch : StoragePatch) (c : String) :
    c ∈ (patchSetArgs patch).1 ↔
      (patch.Name.isSome ∧ c = "name = ?") ∨ (patch.EndPoint.isSome ∧ c = "end_point = ?") ∨
      (patch.Region.isSome ∧ c = "region = ?") ∨ (patch.AccessKey.isSome ∧ c = "access_key = ?") ∨
      (patch.SecretKey.isSome ∧ c = "secret_key = ?") ∨ (patch.Bucket.isSome ∧ c = "bucket = ?") ∨
      (patch.URLPrefix.isSome ∧ c = "url_prefix = ?") := by
  simp only [patchSetArgs, patchField_fst, List.nil_append, List.mem_append, Option.mem_toList,
    Option.mem_def, Option.map_eq_some', Option.isSome_iff_exists]
  aesop

theorem patch_set_eq (patch : StoragePatch) :
    (patchSetArgs patch).1 = presentAssignments patch := by
  obtain ⟨id, a, b, c, d, e, f, g⟩ := patch
  cases a <;> cases b <;> cases c <;> cases d <;> cases e <;> cases f <;> cases g <;> rfl

theorem patch_args_eq (patch : StoragePatch) :
    (patchSetArgs patch).2 = presentValues patch ++ [.int patch.ID] := by
  obtain ⟨id, a, b, c, d, e, f, g⟩ := patch
  cases a <;> cases b <;> cases c <;> cases d <;> cases e <;> cases f <;> cases g <;> rfl

set_option maxRecDepth 100000 in
theorem patch_countMarks (patch : StoragePatch) :
    countMarks (patchStatement patch).query = (patchStatement patch).args.length := by
  obtain ⟨id, a, b, c, d, e, f, g⟩ := patch
  cases a <;> cases b <;> cases c <;> cases d <;> cases e <;> cases f <;> cases g <;> rfl

theorem patch_query_present (p q : StoragePatch) (h : p.present = q.present) :
    (patchStatement p).query = (patchStatement q).query := by
  have hs : (patchSetArgs p).1 = (patchSetArgs q).1 := by
    obtain ⟨i, a, b, c, d, e, f, g⟩ := p
    obtain ⟨j, a1, b1, c1, d1, e1, f1, g1⟩ := q
    simp only [StoragePatch.present, List.cons.injEq, and_true] at h
    obtain ⟨ha, hb, hc, hd, he, hf, hg⟩ := h
    simp only [patchSetArgs, patchField_fst]
    have key : ∀ (cl : String) (x y : Option String), x.isSome = y.isSome →
        (x.map (fun _ => cl)).toList = (y.map (fun _ => cl)).toList := by
      intro cl x y hxy
      cases x <;> cases y <;> simp_all
    rw [key _ _ _ ha, key _ _ _ hb, key _ _ _ hc, key _ _ _ hd, key _ _ _ he, key _ _ _ hf,
      key _ _ _ hg]
  simp only [patchStatement, hs]

/-- C1: for every patch input, absent or present field by field, the statement
built by `patchStorageRaw` has as SET clause exactly the assignments `col = ?`
of the present fields in the fixed order, joined by `, `; its arguments are the
values of the present fields in that order followed by the patch id; and the
assignment of a field is in the clause exactly when the field is present. -/
theorem patchStatement_set_clause (patch : StoragePatch) :
    (patchStatement patch).query =
        "\n\t\tUPDATE storage\n\t\tSET " ++ stringsJoin (presentAssignments patch) ", "
          ++ "\n\t\tWHERE id = ?\n\t\tRETURNING id, name, end_point, region, access_key, secret_key, bucket, url_prefix\n\t"
      ∧ (patchStatement patch).args = presentValues patch ++ [.int patch.ID]
      ∧ ∀ p ∈ patchFields patch,
          ((p.1 ++ " = ?") ∈ (patchSetArgs patch).1 ↔ p.2.isSome = true) := by
  refine ⟨?_, ?_, ?_⟩
  · simp only [patchStatement, patch_set_eq]
  · simp only [patchStatement, patch_args_eq]
  · intro p hp
    rw [mem_patch_set]
    simp only [patchFields, List.mem_cons, List.mem_singleton, List.not_mem_nil, or_false] at hp
    rcases hp with rfl | rfl | rfl | rfl | rfl | rfl | rfl <;> simp

theorem find_where_eq (find : StorageFind) :
    (findWhereArgs find).1 = presentConjuncts find := by
  obtain ⟨a, b⟩ := find
  cases a <;> cases b <;> rfl

/-- C2: for every find filter the WHERE clause built by `findStorageRawList` is
the base predicate `1 = 1` followed by `id = ?` exactly when the id filter is
present and `name = ?` exactly when the name filter is present, joined by
` AND `; it is never empty; the arguments are the present filter values in the
order id, name. -/
theorem findStatement_where_clause (find : StorageFind) :
    (findWhereArgs find).1 = presentConjuncts find
      ∧ (findStatement find).query =
          "\n\t\tSELECT\n\t\t\tid, \n\t\t\tname, \n\t\t\tend_point, \n\t\t\tregion,\n\t\t\taccess_key, \n\t\t\tsecret_key, \n\t\t\tbucket,\n\t\t\turl_prefix\n\t\tFROM storage\n\t\tWHERE "
            ++ stringsJoin (presentConjuncts find) " AND " ++ "\n\t\tORDER BY id DESC\n\t"
      ∧ (findWhereArgs find).1 ≠ []
      ∧ stringsJoin (findWhereArgs find).1 " AND " ≠ ""
      ∧ (findStatement find).args =
          (find.ID.map SqlValue.int).toList ++ (find.Name.map SqlValue.text).toList := by
  refine ⟨find_where_eq find, ?_, ?_, ?_, ?_⟩
  · simp only [findStatement, find_where_eq]
  · rw [find_where_eq]; simp [presentConjuncts]
  · obtain ⟨a, b⟩ := find
    cases a <;> cases b
    · show stringsJoin ["1 = 1"] " AND " ≠ ""
      decide
    · show stringsJoin ["1 = 1", "name = ?"] " AND " ≠ ""
      decide
    · show stringsJoin ["1 = 1", "id = ?"] " AND " ≠ ""
      decide
    · show stringsJoin ["1 = 1", "id = ?", "name = ?"] " AND " ≠ ""
      decide
  · obtain ⟨a, b⟩ := find
    cases a <;> cases b <;> rfl

theorem find_query_present (f g : StorageFind) (h : f.present = g.present) :
    (findStatement f).query = (findStatement g).query := by
  obtain ⟨a, b⟩ := f
  obtain ⟨c, d⟩ := g
  cases a <;> cases b <;> cases c <;> cases d <;> simp [StorageFind.present] at h <;> rfl

set_option maxRecDepth 100000 in
theorem find_countMarks (find : StorageFind) :
    countMarks (findStatement find).query = (findStatement find).args.length := by
  obtain ⟨a, b⟩ := find
  cases a <;> cases b <;> rfl

set_option maxRecDepth 100000 in
theorem create_countMarks (create : StorageCreate) :
    countMarks (createStatement create).query = (createStatement create).args.length := by
  rfl

theorem delete_countMarks (delete : StorageDelete) :
    countMarks (deleteStatement delete).query = (deleteStatement delete).args.length := by
  rfl

/-- C10: the text of every statement depends only on which optional fields are
present: two patches with the same present fields give the same UPDATE text,
two finds with the same present filters the same SELECT text, the INSERT and
DELETE texts are constant; and in each statement the number of `?` equals the
number of arguments. -/
theorem statement_text_independent_of_values :
    (∀ p q : StoragePatch, p.present = q.present →
        (patchStatement p).query = (patchStatement q).query)
      ∧ (∀ f g : StorageFind, f.present = g.present →
        (findStatement f).query = (findStatement g).query)
      ∧ (∀ c d : StorageCreate, (createStatement c).query = (createStatement d).query)
      ∧ (∀ c d : StorageDelete, (deleteStatement c).query = (deleteStatement d).query)
      ∧ (∀ p : StoragePatch,
          countMarks (patchStatement p).query = (patchStatement p).args.length)
      ∧ (∀ f : StorageFind,
          countMarks (findStatement f).query = (findStatement f).args.length)
      ∧ (∀ c : StorageCreate,
          countMarks (createStatement c).query = (createStatement c).args.length)
      ∧ (∀ d : StorageDelete,
          countMarks (deleteStatement d).query = (deleteStatement d).args.length) :=
  ⟨patch_query_present, find_query_present, fun _ _ => rfl, fun _ _ => rfl,
    patch_countMarks, find_countMarks, create_countMarks, delete_countMarks⟩

/-- Witness of C10: a patch of the bucket alone has the same text whatever the
bucket and the id, and a find by name the same text whatever the name. -/
theorem statement_text_independent_of_values_witness :
    (patchStatement ⟨1, none, none, none, none, none, some "assets-v2", none⟩).query =
        (patchStatement ⟨2, none, none, none, none, none, some "x", none⟩).query
      ∧ (findStatement ⟨none, some "a"⟩).query = (findStatement ⟨none, some "b"⟩).query :=
  ⟨statement_text_independent_of_values.1 _ _ (by decide),
    statement_text_independent_of_values.2.1 _ _ (by decide)⟩

/-! ## Transactions -/

theorem beginTx_ok (s : Store) (tx : Tx) (h : s.BeginTx = .ok tx) :
    tx = { committed := s.table, work := s.table, done := false, faults := s.faults,
           calls := [] } := by
  unfold Store.BeginTx at h
  split at h
  · cases h
  · cases h; rfl

theorem run_fields (tx : Tx) (call : TxCall) (q : String) (a : List SqlValue) :
    (tx.run call q a).2.committed = tx.committed ∧ (tx.run call q a).2.done = tx.done
      ∧ (tx.run call q a).2.faults = tx.faults
      ∧ (tx.run call q a).2.calls = tx.calls ++ [call] := by
  unfold Tx.run
  split
  · simp
  · split
    · simp
    · split <;> simp

theorem returning_open {α : Type} (tx : Tx) (r : Except GoError α) (h : tx.done = false) :
    (returning tx r).ret = r ∧ (returning tx r).table = tx.committed
      ∧ (returning tx r).calls = tx.calls ++ [.Rollback] := by
  simp [returning, Tx.Rollback, h]

theorem returning_done {α : Type} (tx : Tx) (r : Except GoError α) (h : tx.done = true) :
    (returning tx r).ret = r ∧ (returning tx r).table = tx.committed
      ∧ (returning tx r).calls = tx.calls ++ [.Rollback] := by
  simp [returning, Tx.Rollback, h]

theorem returning_any {α : Type} (tx : Tx) (r : Except GoError α) :
    (returning tx r).ret = r ∧ (returning tx r).table = tx.committed
      ∧ (returning tx r).calls = tx.calls ++ [.Rollback] := by
  cases h : tx.done
  · exact returning_open tx r h
  · exact returning_done tx r h

theorem commit_open (tx : Tx) (h : tx.done = false) :
    (tx.Commit.2.calls = tx.calls ++ [.Commit])
      ∧ (∀ err, tx.Commit.1 = some err → tx.Commit.2.committed = tx.committed)
      ∧ (tx.Commit.1 = none → tx.Commit.2.committed = tx.work) := by
  unfold Tx.Commit
  simp only [h]
  cases tx.faults.commit <;> simp


theorem createStorageRaw_tx (fmt : GoError → GoError) (tx : Tx) (create : StorageCreate) :
    (createStorageRaw fmt tx create).2.committed = tx.committed
      ∧ (createStorageRaw fmt tx create).2.done = tx.done
      ∧ (createStorageRaw fmt tx create).2.faults = tx.faults
      ∧ (createStorageRaw fmt tx create).2.calls = tx.calls ++
          [.QueryRowContext (createStatement create).query (createStatement create).args] := by
  have h := run_fields tx
    (.QueryRowContext (createStatement create).query (createStatement create).args)
    (createStatement create).query (createStatement create).args
  unfold createStorageRaw Tx.QueryRowContext
  simp only
  split <;> exact h

theorem CreateStorage_run (fmt : GoError → GoError) (s : Store) (create : StorageCreate)
    (tx : Tx) (hb : s.BeginTx = .ok tx) :
    (∀ e, (createStorageRaw fmt tx create).1 = .error e →
        (CreateStorage fmt s create).ret = .error e
          ∧ (CreateStorage fmt s create).table = s.table
          ∧ (CreateStorage fmt s create).calls =
              [.QueryRowContext (createStatement create).query (createStatement create).args,
               .Rollback])
      ∧ (∀ raw, (createStorageRaw fmt tx create).1 = .ok raw →
          (∀ m, s.faults.commit = some m →
            (CreateStorage fmt s create).ret = .error (fmt (.sql (.driver m)))
              ∧ (CreateStorage fmt s create).table = s.table
              ∧ (CreateStorage fmt s create).calls =
                  [.QueryRowContext (createStatement create).query (createStatement create).args,
                   .Commit, .Rollback])
          ∧ (s.faults.commit = none →
            (CreateStorage fmt s create).ret = .ok raw.toStorage
              ∧ (CreateStorage fmt s create).table = (createStorageRaw fmt tx create).2.work
              ∧ (CreateStorage fmt s create).calls =
                  [.QueryRowContext (createStatement create).query (createStatement create).args,
                   .Commit, .Rollback])) := by
  obtain ⟨h1, h2, h3, h4⟩ := createStorageRaw_tx fmt tx create
  have htx := beginTx_ok s tx hb
  have hc : tx.committed = s.table := by rw [htx]
  have hd : tx.done = false := by rw [htx]
  have hf : tx.faults = s.faults := by rw [htx]
  have hl : tx.calls = [] := by rw [htx]
  rw [hc] at h1
  rw [hd] at h2
  rw [hf] at h3
  rw [hl, List.nil_append] at h4
  unfold CreateStorage
  simp only [hb]
  generalize createStorageRaw fmt tx create = r at *
  obtain ⟨r1, tx1⟩ := r
  simp only at h1 h2 h3 h4
  refine ⟨?_, ?_⟩
  · intro e he
    simp only at he
    subst he
    simp only
    have := returning_open (α := Storage) tx1 (.error e) h2
    simp [this, h1, h4]
  · intro raw hraw
    simp only at hraw
    subst hraw
    simp only
    refine ⟨?_, ?_⟩
    · intro m hm
      simp [Tx.Commit, h2, h3, hm, returning, Tx.Rollback, h1, h4]
    · intro hm
      simp [Tx.Commit, h2, h3, hm, returning, Tx.Rollback, h1, h4]

theorem patchStorageRaw_tx (fmt : GoError → GoError) (tx : Tx) (patch : StoragePatch) :
    (patchStorageRaw fmt tx patch).2.committed = tx.committed
      ∧ (patchStorageRaw fmt tx patch).2.done = tx.done
      ∧ (patchStorageRaw fmt tx patch).2.faults = tx.faults
      ∧ (patchStorageRaw fmt tx patch).2.calls = tx.calls ++
          [.QueryRowContext (patchStatement patch).query (patchStatement patch).args] := by
  have h := run_fields tx
    (.QueryRowContext (patchStatement patch).query (patchStatement patch).args)
    (patchStatement patch).query (patchStatement patch).args
  unfold patchStorageRaw Tx.QueryRowContext
  simp only
  split <;> exact h

theorem PatchStorage_run (fmt : GoError → GoError) (s : Store) (patch : StoragePatch)
    (tx : Tx) (hb : s.BeginTx = .ok tx) :
    (∀ e, (patchStorageRaw fmt tx patch).1 = .error e →
        (PatchStorage fmt s patch).ret = .error e
          ∧ (PatchStorage fmt s patch).table = s.table
          ∧ (PatchStorage fmt s patch).calls =
              [.QueryRowContext (patchStatement patch).query (patchStatement patch).args,
               .Rollback])
      ∧ (∀ raw, (patchStorageRaw fmt tx patch).1 = .ok raw →
          (∀ m, s.faults.commit = some m →
            (PatchStorage fmt s patch).ret = .error (fmt (.sql (.driver m)))
              ∧ (PatchStorage fmt s patch).table = s.table
              ∧ (PatchStorage fmt s patch).calls =
                  [.QueryRowContext (patchStatement patch).query (patchStatement patch).args,
                   .Commit, .Rollback])
          ∧ (s.faults.commit = none →
            (PatchStorage fmt s patch).ret = .ok raw.toStorage
              ∧ (PatchStorage fmt s patch).table = (patchStorageRaw fmt tx patch).2.work
              ∧ (PatchStorage fmt s patch).calls =
                  [.QueryRowContext (patchStatement patch).query (patchStatement patch).args,
                   .Commit, .Rollback])) := by
  obtain ⟨h1, h2, h3, h4⟩ := patchStorageRaw_tx fmt tx patch
  have htx := beginTx_ok s tx hb
  have hc : tx.committed = s.table := by rw [htx]
  have hd : tx.done = false := by rw [htx]
  have hf : tx.faults = s.faults := by rw [htx]
  have hl : tx.calls = [] := by rw [htx]
  rw [hc] at h1
  rw [hd] at h2
  rw [hf] at h3
  rw [hl, List.nil_append] at h4
  unfold PatchStorage
  simp only [hb]
  generalize patchStorageRaw fmt tx patch = r at *
  obtain ⟨r1, tx1⟩ := r
  simp only at h1 h2 h3 h4
  refine ⟨?_, ?_⟩
  · intro e he
    simp only at he
    subst he
    simp only
    have := returning_open (α := Storage) tx1 (.error e) h2
    simp [this, h1, h4]
  · intro raw hraw
    simp only at hraw
    subst hraw
    simp only
    refine ⟨?_, ?_⟩
    · intro m hm
      simp [Tx.Commit, h2, h3, hm, returning, Tx.Rollback, h1, h4]
    · intro hm
      simp [Tx.Commit, h2, h3, hm, returning, Tx.Rollback, h1, h4]


theorem findStorageRawList_tx (fmt : GoError → GoError) (tx : Tx) (find : StorageFind) :
    (findStorageRawList fmt tx find).2.committed = tx.committed
      ∧ (findStorageRawList fmt tx find).2.done = tx.done
      ∧ (findStorageRawList fmt tx find).2.faults = tx.faults
      ∧ (findStorageRawList fmt tx find).2.calls = tx.calls ++
          [.QueryContext (findStatement find).query (findStatement find).args] := by
  have h := run_fields tx
    (.QueryContext (findStatement find).query (findStatement find).args)
    (findStatement find).query (findStatement find).args
  unfold findStorageRawList Tx.QueryContext
  simp only
  split
  · exact h
  · split
    · exact h
    · split <;> exact h

theorem deleteStorage_tx (fmt : GoError → GoError) (tx : Tx) (delete : StorageDelete) :
    (deleteStorage fmt tx delete).2.committed = tx.committed
      ∧ (deleteStorage fmt tx delete).2.done = tx.done
      ∧ (deleteStorage fmt tx delete).2.faults = tx.faults
      ∧ (deleteStorage fmt tx delete).2.calls = tx.calls ++
          [.ExecContext (deleteStatement delete).query (deleteStatement delete).args] := by
  have h := run_fields tx
    (.ExecContext (deleteStatement delete).query (deleteStatement delete).args)
    (deleteStatement delete).query (deleteStatement delete).args
  unfold deleteStorage Tx.ExecContext
  simp only
  split
  · exact h
  · split <;> exact h

theorem foldl_append_map {α β : Type} (f : α → β) (l : List α) (init : List β) :
    l.foldl (fun list raw => list ++ [f raw]) init = init ++ l.map f := by
  induction l generalizing init with
  | nil => simp
  | cons a l ih => simp [ih]

theorem tx_of_begin (s : Store) (tx : Tx) (hb : s.BeginTx = .ok tx) :
    tx.committed = s.table ∧ tx.work = s.table ∧ tx.done = false ∧ tx.faults = s.faults
      ∧ tx.calls = [] := by
  rw [beginTx_ok s tx hb]
  simp

theorem FindStorageList_run (fmt : GoError → GoError) (s : Store) (find : StorageFind)
    (tx : Tx) (hb : s.BeginTx = .ok tx) :
    (FindStorageList fmt s find).table = s.table
      ∧ (FindStorageList fmt s find).calls =
          [.QueryContext (findStatement find).query (findStatement find).args, .Rollback]
      ∧ (∀ e, (findStorageRawList fmt tx find).1 = .error e →
          (FindStorageList fmt s find).ret = .error e)
      ∧ (∀ l, (findStorageRawList fmt tx find).1 = .ok l →
          (FindStorageList fmt s find).ret = .ok (l.map storageRaw.toStorage)) := by
  obtain ⟨h1, h2, h3, h4⟩ := findStorageRawList_tx fmt tx find
  obtain ⟨hc, _, hd, hf, hl⟩ := tx_of_begin s tx hb
  rw [hc] at h1
  rw [hd] at h2
  rw [hl, List.nil_append] at h4
  unfold FindStorageList
  simp only [hb]
  generalize findStorageRawList fmt tx find = r at *
  obtain ⟨r1, tx1⟩ := r
  simp only at h1 h2 h3 h4
  cases r1 with
  | error e => simp [returning_open tx1 _ h2, h1, h4]
  | ok l => simp [returning_open tx1 _ h2, h1, h4, foldl_append_map]

theorem FindStorage_run (fmt : GoError → GoError) (s : Store) (find : StorageFind)
    (tx : Tx) (hb : s.BeginTx = .ok tx) :
    (FindStorage fmt s find).table = s.table
      ∧ (FindStorage fmt s find).calls =
          [.QueryContext (findStatement find).query (findStatement find).args, .Rollback]
      ∧ (∀ e, (findStorageRawList fmt tx find).1 = .error e →
          (FindStorage fmt s find).ret = .error e)
      ∧ ((findStorageRawList fmt tx find).1 = .ok [] →
          (FindStorage fmt s find).ret = .error (.common .NotFound "not found"))
      ∧ (∀ raw rest, (findStorageRawList fmt tx find).1 = .ok (raw :: rest) →
          (FindStorage fmt s find).ret = .ok raw.toStorage) := by
  obtain ⟨h1, h2, h3, h4⟩ := findStorageRawList_tx fmt tx find
  obtain ⟨hc, _, hd, hf, hl⟩ := tx_of_begin s tx hb
  rw [hc] at h1
  rw [hd] at h2
  rw [hl, List.nil_append] at h4
  unfold FindStorage
  simp only [hb]
  generalize findStorageRawList fmt tx find = r at *
  obtain ⟨r1, tx1⟩ := r
  simp only at h1 h2 h3 h4
  cases r1 with
  | error e => simp [returning_open tx1 _ h2, h1, h4]
  | ok l =>
    cases l with
    | nil => simp [returning_open tx1 _ h2, h1, h4]
    | cons raw rest => simp [returning_open tx1 _ h2, h1, h4]

theorem DeleteStorage_run (fmt : GoError → GoError) (s : Store) (delete : StorageDelete)
    (tx : Tx) (hb : s.BeginTx = .ok tx) :
    (∀ e, (deleteStorage fmt tx delete).1 = some e →
        (DeleteStorage fmt s delete).ret = .error (fmt e)
          ∧ (DeleteStorage fmt s delete).table = s.table
          ∧ (DeleteStorage fmt s delete).calls =
              [.ExecContext (deleteStatement delete).query (deleteStatement delete).args,
               .Rollback])
      ∧ ((deleteStorage fmt tx delete).1 = none →
          (∀ m, s.faults.commit = some m →
            (DeleteStorage fmt s delete).ret = .error (fmt (.sql (.driver m)))
              ∧ (DeleteStorage fmt s delete).table = s.table
              ∧ (DeleteStorage fmt s delete).calls =
                  [.ExecContext (deleteStatement delete).query (deleteStatement delete).args,
                   .Commit, .Rollback])
          ∧ (s.faults.commit = none →
            (DeleteStorage fmt s delete).ret = .ok ()
              ∧ (DeleteStorage fmt s delete).table = (deleteStorage fmt tx delete).2.work
              ∧ (DeleteStorage fmt s delete).calls =
                  [.ExecContext (deleteStatement delete).query (deleteStatement delete).args,
                   .Commit, .Rollback])) := by
  obtain ⟨h1, h2, h3, h4⟩ := deleteStorage_tx fmt tx delete
  obtain ⟨hc, _, hd, hf, hl⟩ := tx_of_begin s tx hb
  rw [hc] at h1
  rw [hd] at h2
  rw [hf] at h3
  rw [hl, List.nil_append] at h4
  unfold DeleteStorage
  simp only [hb]
  generalize deleteStorage fmt tx delete = r at *
  obtain ⟨r1, tx1⟩ := r
  simp only at h1 h2 h3 h4
  refine ⟨?_, ?_⟩
  · intro e he
    simp only at he
    subst he
    simp [returning_open tx1 _ h2, h1, h4]
  · intro hnone
    simp only at hnone
    subst hnone
    simp only
    refine ⟨?_, ?_⟩
    · intro m hm
      simp [Tx.Commit, h2, h3, hm, returning, Tx.Rollback, h1, h4]
    · intro hm
      simp [Tx.Commit, h2, h3, hm, returning, Tx.Rollback, h1, h4]

/-! ## Find, commit and rollback -/

/-- C3: whenever the list query succeeds, `FindStorage` fails with an error of
kind NotFound exactly when the query returned no row, and otherwise returns the
entity converted from the first row of that list, the one `FindStorageList`
returns first, however many rows there are. -/
theorem FindStorage_first_or_NotFound (fmt : GoError → GoError) (s : Store)
    (find : StorageFind) (tx tx1 : Tx) (list : List storageRaw)
    (hb : s.BeginTx = .ok tx) (hq : findStorageRawList fmt tx find = (.ok list, tx1)) :
    ((∃ e, (FindStorage fmt s find).ret = .error e ∧ e.kind = some .NotFound) ↔ list = [])
      ∧ (FindStorageList fmt s find).ret = .ok (list.map storageRaw.toStorage)
      ∧ ∀ raw rest, list = raw :: rest →
          (FindStorage fmt s find).ret = .ok raw.toStorage
            ∧ (FindStorageList fmt s find).ret
                = .ok (raw.toStorage :: rest.map storageRaw.toStorage) := by
  have hq1 : (findStorageRawList fmt tx find).1 = .ok list := by rw [hq]
  obtain ⟨_, _, _, hnil, hcons⟩ := FindStorage_run fmt s find tx hb
  obtain ⟨_, _, _, hl⟩ := FindStorageList_run fmt s find tx hb
  refine ⟨?_, hl list hq1, ?_⟩
  · constructor
    · rintro ⟨e, he, _⟩
      cases list with
      | nil => rfl
      | cons raw rest =>
        rw [hcons raw rest hq1] at he
        cases he
    · intro hlist
      subst hlist
      exact ⟨_, hnil hq1, rfl⟩
  · intro raw rest hlist
    subst hlist
    exact ⟨hcons raw rest hq1, by rw [hl _ hq1]; rfl⟩

set_option maxRecDepth 100000 in
/-- Witness of C3: on the sample table an unfiltered `FindStorage` returns the
row of id 3, the first of the three rows of the list. -/
theorem FindStorage_first_or_NotFound_witness :
    (FindStorage FormatError sampleStore ⟨none, none⟩).ret
        = .ok ⟨3, "c", "e3", "r3", "a3", "k3", "b3", "u3"⟩
      ∧ (FindStorageList FormatError sampleStore ⟨none, none⟩).ret
        = .ok (storageRaw.toStorage ⟨3, "c", "e3", "r3", "a3", "k3", "b3", "u3"⟩ ::
            List.map storageRaw.toStorage
              [⟨2, "b", "e2", "r2", "a2", "k2", "b2", "u2"⟩,
               ⟨1, "s3", "https://s3.example.com", "us-east-1", "AK", "SK", "assets",
                 "https://cdn.example.com/"⟩]) :=
  (FindStorage_first_or_NotFound FormatError sampleStore ⟨none, none⟩ sampleStore.freshTx
    (findStorageRawList FormatError sampleStore.freshTx ⟨none, none⟩).2 _ rfl rfl).2.2 _ _ rfl

set_option maxRecDepth 100000 in
/-- Counterexample to C6 as stated: an unfiltered `FindStorageList` on the
sample table returns its three entities successfully, and the calls on its
transaction are the query and the rollback, with no commit. -/
theorem FindStorageList_returns_without_commit :
    (∃ l, (FindStorageList FormatError sampleStore ⟨none, none⟩).ret = .ok l ∧ l.length = 3)
      ∧ TxCall.Commit ∉ (FindStorageList FormatError sampleStore ⟨none, none⟩).calls
      ∧ (FindStorageList FormatError sampleStore ⟨none, none⟩).calls
          = [.QueryContext (findStatement ⟨none, none⟩).query [], .Rollback] := by
  refine ⟨⟨_, rfl, rfl⟩, ?_, rfl⟩
  rw [(FindStorageList_run FormatError sampleStore ⟨none, none⟩ sampleStore.freshTx rfl).2.1]
  simp

theorem ok_ne_error {ε α : Type} {a : α} {e : ε} {x : Except ε α}
    (h1 : x = .ok a) (h2 : x = .error e) : False := by
  rw [h1] at h2
  cases h2

/-- C6, amended: a successful run of `CreateStorage`, `PatchStorage` or
`DeleteStorage` has made exactly three calls on its transaction, the single
statement, then the commit, then the deferred rollback; a successful run of
`FindStorageList` or `FindStorage` has made the query and the rollback, and no
commit. -/
theorem successful_runs_commit_writes (fmt : GoError → GoError) (s : Store) :
    (∀ create v, (CreateStorage fmt s create).ret = .ok v →
        (CreateStorage fmt s create).calls =
          [.QueryRowContext (createStatement create).query (createStatement create).args,
           .Commit, .Rollback])
      ∧ (∀ patch v, (PatchStorage fmt s patch).ret = .ok v →
        (PatchStorage fmt s patch).calls =
          [.QueryRowContext (patchStatement patch).query (patchStatement patch).args,
           .Commit, .Rollback])
      ∧ (∀ delete v, (DeleteStorage fmt s delete).ret = .ok v →
        (DeleteStorage fmt s delete).calls =
          [.ExecContext (deleteStatement delete).query (deleteStatement delete).args,
           .Commit, .Rollback])
      ∧ (∀ find v, (FindStorageList fmt s find).ret = .ok v →
        (FindStorageList fmt s find).calls =
          [.QueryContext (findStatement find).query (findStatement find).args, .Rollback])
      ∧ (∀ find v, (FindStorage fmt s find).ret = .ok v →
        (FindStorage fmt s find).calls =
          [.QueryContext (findStatement find).query (findStatement find).args, .Rollback]) := by
  cases hb : s.BeginTx with
  | error e =>
    refine ⟨?_, ?_, ?_, ?_, ?_⟩ <;> intro x v h
    · simp [CreateStorage, hb] at h
    · simp [PatchStorage, hb] at h
    · simp [DeleteStorage, hb] at h
    · simp [FindStorageList, hb] at h
    · simp [FindStorage, hb] at h
  | ok tx =>
    refine ⟨?_, ?_, ?_, ?_, ?_⟩
    · intro create v h
      obtain ⟨herr, hok⟩ := CreateStorage_run fmt s create tx hb
      cases hr : (createStorageRaw fmt tx create).1 with
      | error e => exact (ok_ne_error h (herr e hr).1).elim
      | ok raw =>
        cases hc : s.faults.commit with
        | some m => exact (ok_ne_error h ((hok raw hr).1 m hc).1).elim
        | none => exact ((hok raw hr).2 hc).2.2
    · intro patch v h
      obtain ⟨herr, hok⟩ := PatchStorage_run fmt s patch tx hb
      cases hr : (patchStorageRaw fmt tx patch).1 with
      | error e => exact (ok_ne_error h (herr e hr).1).elim
      | ok raw =>
        cases hc : s.faults.commit with
        | some m => exact (ok_ne_error h ((hok raw hr).1 m hc).1).elim
        | none => exact ((hok raw hr).2 hc).2.2
    · intro delete v h
      obtain ⟨herr, hok⟩ := DeleteStorage_run fmt s delete tx hb
      cases hr : (deleteStorage fmt tx delete).1 with
      | some e => exact (ok_ne_error h (herr e hr).1).elim
      | none =>
        cases hc : s.faults.commit with
        | some m => exact (ok_ne_error h ((hok hr).1 m hc).1).elim
        | none => exact ((hok hr).2 hc).2.2
    · intro find v _
      exact (FindStorageList_run fmt s find tx hb).2.1
    · intro find v _
      exact (FindStorage_run fmt s find tx hb).2.1

set_option maxRecDepth 100000 in
/-- Witness of C6, amended: deleting the row of id 1 of the sample table
succeeds, and its calls are the statement, the commit and the rollback. -/
theorem successful_runs_commit_writes_witness :
    (DeleteStorage FormatError sampleStore ⟨1⟩).ret = .ok ()
      ∧ (DeleteStorage FormatError sampleStore ⟨1⟩).calls =
          [.ExecContext (deleteStatement ⟨1⟩).query (deleteStatement ⟨1⟩).args,
           .Commit, .Rollback] :=
  ⟨rfl, (successful_runs_commit_writes FormatError sampleStore).2.2.1 ⟨1⟩ () rfl⟩

theorem failedRunAborts_of_stmt_error {α : Type} (s : Store) (P : Prop) (o : Outcome α)
    (q : TxCall) (e : GoError) (hq : q ≠ .Commit)
    (hret : o.ret = .error e) (htable : o.table = s.table) (hcalls : o.calls = [q, .Rollback]) :
    FailedRunAborts s P o := by
  refine ⟨fun _ => ⟨e, hret⟩, fun _ => ?_, ?_, fun _ => htable⟩
  · rw [hcalls]
    simp [hq.symm]
  · rw [hcalls]
    rfl

theorem failedRunAborts_of_commit_error {α : Type} (s : Store) (P : Prop) (o : Outcome α)
    (q : TxCall) (e : GoError) (hP : ¬ P)
    (hret : o.ret = .error e) (htable : o.table = s.table)
    (hcalls : o.calls = [q, .Commit, .Rollback]) :
    FailedRunAborts s P o := by
  refine ⟨fun _ => ⟨e, hret⟩, fun h => (hP h).elim, ?_, fun _ => htable⟩
  rw [hcalls]
  rfl

theorem failedRunAborts_of_ok {α : Type} (s : Store) (P : Prop) (o : Outcome α)
    (v : α) (hP : ¬ P) (hc : TxCall.Commit ∈ o.calls → s.faults.commit = none)
    (hret : o.ret = .ok v) (hlast : o.calls.getLast? = some .Rollback) :
    FailedRunAborts s P o := by
  refine ⟨?_, fun h => (hP h).elim, hlast, ?_⟩
  · rintro (h | ⟨hm, h⟩)
    · exact (hP h).elim
    · exact (h (hc hm)).elim
  · rintro ⟨e, he⟩
    exact (ok_ne_error hret he).elim

theorem run_statement_fault (tx : Tx) (call : TxCall) (q : String) (a : List SqlValue)
    (m : String) (hd : tx.done = false) (hm : tx.faults.statement = some m) :
    (tx.run call q a).1 = .error (.driver m) := by
  simp [Tx.run, hd, hm]

theorem queryRow_faults (tx : Tx) (q : String) (a : List SqlValue) :
    (tx.QueryRowContext q a).2.faults = tx.faults :=
  (run_fields tx (.QueryRowContext q a) q a).2.2.1

theorem query_faults (tx : Tx) (q : String) (a : List SqlValue) :
    (tx.QueryContext q a).2.faults = tx.faults :=
  (run_fields tx (.QueryContext q a) q a).2.2.1

theorem createStorageRaw_of_rowReadFails (fmt : GoError → GoError) (tx : Tx)
    (create : StorageCreate) (h : RowReadFails tx (createStatement create)) :
    ∃ e, (createStorageRaw fmt tx create).1 = .error e := by
  obtain ⟨e, he⟩ := h
  refine ⟨fmt (.sql e), ?_⟩
  unfold createStorageRaw
  simp only [queryRow_faults, he]

theorem patchStorageRaw_of_rowReadFails (fmt : GoError → GoError) (tx : Tx)
    (patch : StoragePatch) (h : RowReadFails tx (patchStatement patch)) :
    ∃ e, (patchStorageRaw fmt tx patch).1 = .error e := by
  obtain ⟨e, he⟩ := h
  refine ⟨fmt (.sql e), ?_⟩
  unfold patchStorageRaw
  simp only [queryRow_faults, he]

theorem scanLoop_of_scan_error (fmt : GoError → GoError) (faults : Faults)
    (rows : List (List SqlValue)) :
    ∀ (i k : Nat) (acc : List storageRaw) (vals : List SqlValue) (e : SqlErr),
      rows.get? k = some vals → scanAt faults (i + k) vals = .error e →
      ∃ e1, scanLoop fmt faults i rows acc = .error e1 := by
  induction rows with
  | nil =>
    intro i k acc vals e hk _
    simp at hk
  | cons v rest ih =>
    intro i k acc vals e hk he
    cases k with
    | zero =>
      simp only [List.get?_cons_zero, Option.some.injEq] at hk
      subst hk
      rw [Nat.add_zero] at he
      exact ⟨fmt (.sql e), by simp [scanLoop, he]⟩
    | succ k =>
      simp only [List.get?_cons_succ] at hk
      cases hv : scanAt faults i v with
      | error e0 => exact ⟨fmt (.sql e0), by simp [scanLoop, hv]⟩
      | ok raw =>
        have he1 : scanAt faults (i + 1 + k) vals = .error e := by
          rw [Nat.add_assoc, Nat.add_comm 1 k]
          exact he
        obtain ⟨e1, h1⟩ := ih (i + 1) k (acc ++ [raw]) vals e hk he1
        exact ⟨e1, by simp [scanLoop, hv, h1]⟩

theorem findStorageRawList_of_rowsReadFail (fmt : GoError → GoError) (tx : Tx)
    (find : StorageFind) (h : RowsReadFail tx (findStatement find)) :
    ∃ e, (findStorageRawList fmt tx find).1 = .error e := by
  have hf := query_faults tx (findStatement find).query (findStatement find).args
  unfold findStorageRawList
  rcases h with ⟨e, he⟩ | ⟨rows, hrows, hscan | herr⟩
  · simp only [he]
    exact ⟨_, rfl⟩
  · obtain ⟨i, vals, e, hi, he⟩ := hscan
    obtain ⟨e1, h1⟩ := scanLoop_of_scan_error fmt tx.faults rows 0 i [] vals e hi
      (by rw [Nat.zero_add]; exact he)
    simp only [hrows, hf, h1]
    exact ⟨_, rfl⟩
  · simp only [hrows, hf]
    cases scanLoop fmt tx.faults 0 rows [] with
    | error e1 => exact ⟨_, rfl⟩
    | ok l =>
      cases hr : tx.faults.rowsErr with
      | none => exact (herr hr).elim
      | some m => exact ⟨_, rfl⟩

theorem deleteStorage_of_execFails (fmt : GoError → GoError) (tx : Tx)
    (delete : StorageDelete) (h : ExecFails tx (deleteStatement delete)) :
    ∃ e, (deleteStorage fmt tx delete).1 = some e := by
  obtain ⟨e, he⟩ := h
  refine ⟨fmt (.sql e), ?_⟩
  unfold deleteStorage
  simp only [he]

theorem not_of_ok {ε α : Type} {P : Prop} {x : Except ε α} {a : α}
    (hx : x = .ok a) (h : P → ∃ e, x = .error e) : ¬ P := by
  intro hp
  obtain ⟨e, he⟩ := h hp
  exact ok_ne_error hx he

theorem rowReadFails_of_statement_fault (tx : Tx) (st : Statement) (m : String)
    (hd : tx.done = false) (hm : tx.faults.statement = some m) : RowReadFails tx st :=
  ⟨.driver m, by
    simp [Tx.QueryRowContext, run_statement_fault tx _ _ _ m hd hm, rowScan, Except.map]⟩

theorem rowReadFails_of_scan_fault (tx : Tx) (st : Statement) (m : String)
    (hm : tx.faults.scan = some (0, m)) : RowReadFails tx st := by
  unfold RowReadFails
  cases (tx.QueryRowContext st.query st.args).1 with
  | error e => exact ⟨e, rfl⟩
  | ok rows =>
    cases rows with
    | nil => exact ⟨.ErrNoRows, rfl⟩
    | cons v rest => exact ⟨.driver m, by simp [rowScan, scanAt, hm]⟩

theorem rowsReadFail_of_statement_fault (tx : Tx) (st : Statement) (m : String)
    (hd : tx.done = false) (hm : tx.faults.statement = some m) : RowsReadFail tx st :=
  Or.inl ⟨.driver m, by
    simp [Tx.QueryContext, run_statement_fault tx _ _ _ m hd hm, Except.map]⟩

theorem rowsReadFail_of_scan_fault (tx : Tx) (st : Statement) (k : Nat) (m : String)
    (rows : List (List SqlValue)) (hm : tx.faults.scan = some (k, m))
    (hq : (tx.QueryContext st.query st.args).1 = .ok rows) (hk : k < rows.length) :
    RowsReadFail tx st :=
  Or.inr ⟨rows, hq, Or.inl ⟨k, rows.get ⟨k, hk⟩, .driver m, List.get?_eq_get hk, by
    simp [scanAt, hm]⟩⟩

theorem rowsReadFail_of_rowsErr (tx : Tx) (st : Statement) (m : String)
    (hm : tx.faults.rowsErr = some m) : RowsReadFail tx st := by
  cases h : (tx.QueryContext st.query st.args).1 with
  | error e => exact Or.inl ⟨e, h⟩
  | ok rows => exact Or.inr ⟨rows, h, Or.inr (by rw [hm]; simp)⟩

theorem execFails_of_statement_fault (tx : Tx) (st : Statement) (m : String)
    (hd : tx.done = false) (hm : tx.faults.statement = some m) : ExecFails tx st :=
  ⟨.driver m, by
    simp [Tx.ExecContext, run_statement_fault tx _ _ _ m hd hm, Except.map]⟩

theorem inner_of_statement_fault (fmt : GoError → GoError) (tx : Tx) (m : String)
    (hd : tx.done = false) (hm1 : tx.faults.statement = some m) :
    (∀ create, (createStorageRaw fmt tx create).1 = .error (fmt (.sql (.driver m))))
      ∧ (∀ patch, (patchStorageRaw fmt tx patch).1 = .error (fmt (.sql (.driver m))))
      ∧ (∀ find, (findStorageRawList fmt tx find).1 = .error (fmt (.sql (.driver m))))
      ∧ (∀ delete, (deleteStorage fmt tx delete).1 = some (fmt (.sql (.driver m)))) := by
  refine ⟨?_, ?_, ?_, ?_⟩
  · intro create
    simp [createStorageRaw, Tx.QueryRowContext, run_statement_fault tx _ _ _ m hd hm1,
      rowScan, Except.map]
  · intro patch
    simp [patchStorageRaw, Tx.QueryRowContext, run_statement_fault tx _ _ _ m hd hm1,
      rowScan, Except.map]
  · intro find
    simp [findStorageRawList, Tx.QueryContext, run_statement_fault tx _ _ _ m hd hm1,
      Except.map]
  · intro delete
    simp [deleteStorage, Tx.ExecContext, run_statement_fault tx _ _ _ m hd hm1,
      Except.map]

/-- C7: in every run whose transaction was begun, for each of the five
operations, with the failures taken in the store: if the statement fails, or
the `Scan` of a row read fails (of the single row of `QueryRowContext`, or of any
one row of the result of `QueryContext`), or `rows.Err()` is not nil, or the
commit fails, the operation returns an error and no value; no commit is called
after a failed statement or row read; the rollback is the last call on the
transaction; and a run that returns an error leaves the table unchanged. The
failure conditions are met whenever the store fails its statements, the `Scan`
of a row that is read, or `rows.Err()`; a store that fails its statements makes
every operation return that error, mapped; and a store that fails its commits
makes `CreateStorage`, `PatchStorage` and `DeleteStorage` return an error with
the table unchanged. -/
theorem failed_runs_abort (fmt : GoError → GoError) (s : Store) (tx : Tx)
    (hb : s.BeginTx = .ok tx) :
    (∀ create, FailedRunAborts s (RowReadFails tx (createStatement create))
        (CreateStorage fmt s create))
      ∧ (∀ patch, FailedRunAborts s (RowReadFails tx (patchStatement patch))
        (PatchStorage fmt s patch))
      ∧ (∀ find, FailedRunAborts s (RowsReadFail tx (findStatement find))
        (FindStorageList fmt s find))
      ∧ (∀ find, FailedRunAborts s (RowsReadFail tx (findStatement find))
        (FindStorage fmt s find))
      ∧ (∀ delete, FailedRunAborts s (ExecFails tx (deleteStatement delete))
        (DeleteStorage fmt s delete))
      ∧ (∀ m, s.faults.statement = some m →
          (∀ st, RowReadFails tx st ∧ RowsReadFail tx st ∧ ExecFails tx st)
            ∧ (∀ create, (CreateStorage fmt s create).ret = .error (fmt (.sql (.driver m))))
            ∧ (∀ patch, (PatchStorage fmt s patch).ret = .error (fmt (.sql (.driver m))))
            ∧ (∀ find, (FindStorageList fmt s find).ret = .error (fmt (.sql (.driver m))))
            ∧ (∀ find, (FindStorage fmt s find).ret = .error (fmt (.sql (.driver m))))
            ∧ (∀ delete,
                (DeleteStorage fmt s delete).ret = .error (fmt (fmt (.sql (.driver m))))))
      ∧ (∀ m, s.faults.scan = some (0, m) → ∀ st, RowReadFails tx st)
      ∧ (∀ k m st rows, s.faults.scan = some (k, m) →
          (tx.QueryContext st.query st.args).1 = .ok rows → k < rows.length →
          RowsReadFail tx st)
      ∧ (∀ m, s.faults.rowsErr = some m → ∀ st, RowsReadFail tx st)
      ∧ (∀ m, s.faults.commit = some m →
          (∀ create, (∃ e, (CreateStorage fmt s create).ret = .error e)
              ∧ (CreateStorage fmt s create).table = s.table)
            ∧ (∀ patch, (∃ e, (PatchStorage fmt s patch).ret = .error e)
              ∧ (PatchStorage fmt s patch).table = s.table)
            ∧ (∀ delete, (∃ e, (DeleteStorage fmt s delete).ret = .error e)
              ∧ (DeleteStorage fmt s delete).table = s.table)) := by
  obtain ⟨_, _, hd, hf, _⟩ := tx_of_begin s tx hb
  refine ⟨?_, ?_, ?_, ?_, ?_, ?_, ?_, ?_, ?_, ?_⟩
  · intro create
    obtain ⟨herr, hok⟩ := CreateStorage_run fmt s create tx hb
    cases hr : (createStorageRaw fmt tx create).1 with
    | error e =>
      obtain ⟨h1, h2, h3⟩ := herr e hr
      exact failedRunAborts_of_stmt_error s _ _ _ e (by simp) h1 h2 h3
    | ok raw =>
      have hP := not_of_ok hr (createStorageRaw_of_rowReadFails fmt tx create)
      cases hc : s.faults.commit with
      | some m =>
        obtain ⟨h1, h2, h3⟩ := (hok raw hr).1 m hc
        exact failedRunAborts_of_commit_error s _ _ _ _ hP h1 h2 h3
      | none =>
        obtain ⟨h1, _, h3⟩ := (hok raw hr).2 hc
        exact failedRunAborts_of_ok s _ _ _ hP (fun _ => hc) h1 (by rw [h3]; rfl)
  · intro patch
    obtain ⟨herr, hok⟩ := PatchStorage_run fmt s patch tx hb
    cases hr : (patchStorageRaw fmt tx patch).1 with
    | error e =>
      obtain ⟨h1, h2, h3⟩ := herr e hr
      exact failedRunAborts_of_stmt_error s _ _ _ e (by simp) h1 h2 h3
    | ok raw =>
      have hP := not_of_ok hr (patchStorageRaw_of_rowReadFails fmt tx patch)
      cases hc : s.faults.commit with
      | some m =>
        obtain ⟨h1, h2, h3⟩ := (hok raw hr).1 m hc
        exact failedRunAborts_of_commit_error s _ _ _ _ hP h1 h2 h3
      | none =>
        obtain ⟨h1, _, h3⟩ := (hok raw hr).2 hc
        exact failedRunAborts_of_ok s _ _ _ hP (fun _ => hc) h1 (by rw [h3]; rfl)
  · intro find
    obtain ⟨ht, hcalls, herr, hok⟩ := FindStorageList_run fmt s find tx hb
    cases hr : (findStorageRawList fmt tx find).1 with
    | error e => exact failedRunAborts_of_stmt_error s _ _ _ e (by simp) (herr e hr) ht hcalls
    | ok l =>
      have hP := not_of_ok hr (findStorageRawList_of_rowsReadFail fmt tx find)
      refine failedRunAborts_of_ok s _ _ _ hP ?_ (hok l hr) (by rw [hcalls]; rfl)
      rw [hcalls]
      simp
  · intro find
    obtain ⟨ht, hcalls, herr, hnil, hcons⟩ := FindStorage_run fmt s find tx hb
    cases hr : (findStorageRawList fmt tx find).1 with
    | error e => exact failedRunAborts_of_stmt_error s _ _ _ e (by simp) (herr e hr) ht hcalls
    | ok l =>
      have hP := not_of_ok hr (findStorageRawList_of_rowsReadFail fmt tx find)
      cases l with
      | nil =>
        refine ⟨fun _ => ⟨_, hnil hr⟩, fun _ => ?_, by rw [hcalls]; rfl, fun _ => ht⟩
        rw [hcalls]
        simp
      | cons raw rest =>
        refine failedRunAborts_of_ok s _ _ _ hP ?_ (hcons raw rest hr)
          (by rw [hcalls]; rfl)
        rw [hcalls]
        simp
  · intro delete
    obtain ⟨herr, hok⟩ := DeleteStorage_run fmt s delete tx hb
    cases hr : (deleteStorage fmt tx delete).1 with
    | some e =>
      obtain ⟨h1, h2, h3⟩ := herr e hr
      exact failedRunAborts_of_stmt_error s _ _ _ _ (by simp) h1 h2 h3
    | none =>
      have hP : ¬ ExecFails tx (deleteStatement delete) := by
        intro hp
        obtain ⟨e, he⟩ := deleteStorage_of_execFails fmt tx delete hp
        rw [hr] at he
        cases he
      cases hc : s.faults.commit with
      | some m =>
        obtain ⟨h1, h2, h3⟩ := (hok hr).1 m hc
        exact failedRunAborts_of_commit_error s _ _ _ _ hP h1 h2 h3
      | none =>
        obtain ⟨h1, _, h3⟩ := (hok hr).2 hc
        exact failedRunAborts_of_ok s _ _ _ hP (fun _ => hc) h1 (by rw [h3]; rfl)
  · intro m hm
    have hm1 : tx.faults.statement = some m := by rw [hf]; exact hm
    obtain ⟨i1, i2, i3, i4⟩ := inner_of_statement_fault fmt tx m hd hm1
    refine ⟨fun st => ⟨rowReadFails_of_statement_fault tx st m hd hm1,
      rowsReadFail_of_statement_fault tx st m hd hm1,
      execFails_of_statement_fault tx st m hd hm1⟩, ?_, ?_, ?_, ?_, ?_⟩
    · intro create
      exact ((CreateStorage_run fmt s create tx hb).1 _ (i1 create)).1
    · intro patch
      exact ((PatchStorage_run fmt s patch tx hb).1 _ (i2 patch)).1
    · intro find
      exact (FindStorageList_run fmt s find tx hb).2.2.1 _ (i3 find)
    · intro find
      exact (FindStorage_run fmt s find tx hb).2.2.1 _ (i3 find)
    · intro delete
      exact ((DeleteStorage_run fmt s delete tx hb).1 _ (i4 delete)).1
  · intro m hm st
    exact rowReadFails_of_scan_fault tx st m (by rw [hf]; exact hm)
  · intro k m st rows hm hq hk
    exact rowsReadFail_of_scan_fault tx st k m rows (by rw [hf]; exact hm) hq hk
  · intro m hm st
    exact rowsReadFail_of_rowsErr tx st m (by rw [hf]; exact hm)
  · intro m hm
    refine ⟨?_, ?_, ?_⟩
    · intro create
      obtain ⟨herr, hok⟩ := CreateStorage_run fmt s create tx hb
      cases hr : (createStorageRaw fmt tx create).1 with
      | error e => exact ⟨⟨e, (herr e hr).1⟩, (herr e hr).2.1⟩
      | ok raw => exact ⟨⟨_, ((hok raw hr).1 m hm).1⟩, ((hok raw hr).1 m hm).2.1⟩
    · intro patch
      obtain ⟨herr, hok⟩ := PatchStorage_run fmt s patch tx hb
      cases hr : (patchStorageRaw fmt tx patch).1 with
      | error e => exact ⟨⟨e, (herr e hr).1⟩, (herr e hr).2.1⟩
      | ok raw => exact ⟨⟨_, ((hok raw hr).1 m hm).1⟩, ((hok raw hr).1 m hm).2.1⟩
    · intro delete
      obtain ⟨herr, hok⟩ := DeleteStorage_run fmt s delete tx hb
      cases hr : (deleteStorage fmt tx delete).1 with
      | some e => exact ⟨⟨_, (herr e hr).1⟩, (herr e hr).2.1⟩
      | none => exact ⟨⟨_, ((hok hr).1 m hm).1⟩, ((hok hr).1 m hm).2.1⟩

set_option maxRecDepth 100000 in
/-- Witness of C7: on the store whose statements fail, `PatchStorage` returns
the mapped error of the statement, commits nothing, ends with the rollback and
leaves the table; on the store where the `Scan` of the second row fails, the
read of `FindStorageList` fails and the operation returns that error; on the
store where `rows.Err()` is not nil, `FindStorage` returns that error; on the
store whose commits fail, `DeleteStorage` of an existing row returns an error
and the table keeps its rows. -/
theorem failed_runs_abort_witness :
    FailedRunAborts faultyStore
        (RowReadFails faultyStore.freshTx
          (patchStatement ⟨1, none, none, none, none, none, some "assets-v2", none⟩))
        (PatchStorage FormatError faultyStore
          ⟨1, none, none, none, none, none, some "assets-v2", none⟩)
      ∧ (PatchStorage FormatError faultyStore
          ⟨1, none, none, none, none, none, some "assets-v2", none⟩).ret
          = .error (.common .Internal "connection lost")
      ∧ RowsReadFail scanFaultyStore.freshTx (findStatement ⟨none, none⟩)
      ∧ FailedRunAborts scanFaultyStore
          (RowsReadFail scanFaultyStore.freshTx (findStatement ⟨none, none⟩))
          (FindStorageList FormatError scanFaultyStore ⟨none, none⟩)
      ∧ (FindStorageList FormatError scanFaultyStore ⟨none, none⟩).ret
          = .error (.common .Internal "scan failed")
      ∧ (FindStorageList FormatError scanFaultyStore ⟨none, none⟩).calls
          = [.QueryContext (findStatement ⟨none, none⟩).query [], .Rollback]
      ∧ RowsReadFail rowsErrStore.freshTx (findStatement ⟨none, none⟩)
      ∧ (FindStorage FormatError rowsErrStore ⟨none, none⟩).ret
          = .error (.common .Internal "rows broken")
      ∧ (DeleteStorage FormatError commitFaultyStore ⟨1⟩).ret
          = .error (.common .Internal "commit refused")
      ∧ (DeleteStorage FormatError commitFaultyStore ⟨1⟩).table = sampleTable :=
  ⟨(failed_runs_abort FormatError faultyStore faultyStore.freshTx rfl).2.1 _, rfl,
    (failed_runs_abort FormatError scanFaultyStore scanFaultyStore.freshTx rfl).2.2.2.2.2.2.2.1
      1 "scan failed" (findStatement ⟨none, none⟩) _ rfl rfl (by decide),
    (failed_runs_abort FormatError scanFaultyStore scanFaultyStore.freshTx rfl).2.2.1 _,
    rfl, rfl,
    (failed_runs_abort FormatError rowsErrStore rowsErrStore.freshTx rfl).2.2.2.2.2.2.2.2.1
      "rows broken" rfl _,
    rfl, rfl,
    (((failed_runs_abort FormatError commitFaultyStore commitFaultyStore.freshTx
      rfl).2.2.2.2.2.2.2.2.2 "commit refused" rfl).2.2 ⟨1⟩).2⟩

/-! ## Create -/

theorem beginTx_of_none (s : Store) (h : s.faults.beginTx = none) :
    s.BeginTx = .ok s.freshTx := by
  simp [Store.BeginTx, h, Store.freshTx]

set_option maxRecDepth 100000 in
theorem runQuery_create (t : Table) (create : StorageCreate) :
    runQuery t (createStatement create).query (createStatement create).args =
      .ok { rows := [[.int (t.seq + 1), .text create.Name, .text create.EndPoint,
                      .text create.Region, .text create.AccessKey, .text create.SecretKey,
                      .text create.Bucket, .text create.URLPrefix]]
            affected := 1
            table :=
              { rows := t.rows ++ [insertedRow (t.seq + 1) create]
                seq := t.seq + 1 } } := by
  rfl

theorem createStorageRaw_ok (fmt : GoError → GoError) (s : Store) (create : StorageCreate)
    (hs : s.faults.statement = none) (hscan : s.faults.scan = none) :
    (createStorageRaw fmt s.freshTx create).1 =
        .ok ⟨s.table.seq + 1, create.Name, create.EndPoint, create.Region, create.AccessKey,
          create.SecretKey, create.Bucket, create.URLPrefix⟩
      ∧ (createStorageRaw fmt s.freshTx create).2.work =
        { rows := s.table.rows ++ [insertedRow (s.table.seq + 1) create]
          seq := s.table.seq + 1 } := by
  simp [createStorageRaw, Tx.QueryRowContext, Tx.run, Store.freshTx, hs, runQuery_create,
    Except.map, rowScan, scanAt, hscan, scanStorageRaw]

/-- C8: `createStorageRaw` pairs each inserted column with the input field of
the same meaning, the eight values read back go to the fields of the same
meaning, and when the store inserts and returns the row, `CreateStorage`
returns the entity whose seven fields are the input's and whose id is the one
the store assigned, the row being in the table afterwards. -/
theorem CreateStorage_returns_inserted_row (fmt : GoError → GoError) (s : Store)
    (create : StorageCreate) (hb : s.faults.beginTx = none) (hs : s.faults.statement = none)
    (hscan : s.faults.scan = none) (hc : s.faults.commit = none) :
    List.zip createSet (createStatement create).args =
        [("name", .text create.Name), ("end_point", .text create.EndPoint),
         ("region", .text create.Region), ("access_key", .text create.AccessKey),
         ("secret_key", .text create.SecretKey), ("bucket", .text create.Bucket),
         ("url_prefix", .text create.URLPrefix)]
      ∧ (∀ (v0 : Int) (v1 v2 v3 v4 v5 v6 v7 : String),
          (scanStorageRaw [.int v0, .text v1, .text v2, .text v3, .text v4, .text v5,
              .text v6, .text v7]).map storageRaw.toStorage =
            .ok { ID := v0, Name := v1, EndPoint := v2, Region := v3, AccessKey := v4,
                  SecretKey := v5, Bucket := v6, URLPrefix := v7 })
      ∧ (CreateStorage fmt s create).ret = .ok (createdStorage (s.table.seq + 1) create)
      ∧ (CreateStorage fmt s create).table =
          { rows := s.table.rows ++ [insertedRow (s.table.seq + 1) create]
            seq := s.table.seq + 1 } := by
  obtain ⟨h1, h2⟩ := createStorageRaw_ok fmt s create hs hscan
  obtain ⟨_, hok⟩ := CreateStorage_run fmt s create s.freshTx (beginTx_of_none s hb)
  obtain ⟨hret, htable, _⟩ := (hok _ h1).2 hc
  refine ⟨rfl, fun _ _ _ _ _ _ _ _ => rfl, ?_, ?_⟩
  · rw [hret]
    rfl
  · rw [htable, h2]

set_option maxRecDepth 100000 in
/-- Witness of C8: the scenario of the specification, a create on the empty
table, gives the entity of id 1 with the fields of the input. -/
theorem CreateStorage_returns_inserted_row_witness :
    (CreateStorage FormatError ⟨⟨[], 0⟩, noFaults⟩
        ⟨"s3", "https://s3.example.com", "us-east-1", "AK", "SK", "assets",
          "https://cdn.example.com/"⟩).ret
      = .ok ⟨1, "s3", "https://s3.example.com", "us-east-1", "AK", "SK", "assets",
          "https://cdn.example.com/"⟩ :=
  (CreateStorage_returns_inserted_row FormatError ⟨⟨[], 0⟩, noFaults⟩ _ rfl rfl rfl rfl).2.2.1

/-! ## Patch -/

set_option maxRecDepth 100000 in
theorem parse_patch (patch : StoragePatch) :
    parseStmt (tokenize (patchStatement patch).query) =
      if presentColumns patch = [] then none
      else some (.update (presentColumns patch) [.eqParam "id"] columns) := by
  obtain ⟨id, a, b, c, d, e, f, g⟩ := patch
  cases a <;> cases b <;> cases c <;> cases d <;> cases e <;> cases f <;> cases g <;> rfl

theorem presentColumns_length (patch : StoragePatch) :
    (presentColumns patch).length = (presentValues patch).length := by
  obtain ⟨id, a, b, c, d, e, f, g⟩ := patch
  cases a <;> cases b <;> cases c <;> cases d <;> cases e <;> cases f <;> cases g <;> rfl

theorem presentColumns_ne_nil (patch : StoragePatch)
    (h : ∃ p ∈ patchFields patch, p.2.isSome = true) : presentColumns patch ≠ [] := by
  obtain ⟨p, hp, hsome⟩ := h
  have hmem : p.1 ∈ presentColumns patch := by
    unfold presentColumns
    rw [List.mem_filterMap]
    refine ⟨p, hp, ?_⟩
    obtain ⟨v, hv⟩ := Option.isSome_iff_exists.mp hsome
    simp [hv]
  intro hnil
  rw [hnil] at hmem
  cases hmem

theorem bindCols_zip (cols : List String) (vals rest : List SqlValue)
    (h : cols.length = vals.length) :
    bindCols cols (vals ++ rest) = some (cols.zip vals, rest) := by
  induction cols generalizing vals with
  | nil =>
    cases vals with
    | nil => cases rest <;> rfl
    | cons v vs => simp at h
  | cons c cs ih =>
    cases vals with
    | nil => simp at h
    | cons v vs =>
      simp only [List.length_cons, Nat.add_right_cancel_iff] at h
      simp [bindCols, ih vs h]

theorem satisfies_id (r : Row) (id : Int) :
    r.satisfies [("id", .int id)] = decide (r.id = id) := by
  by_cases h : r.id = id <;> simp [Row.satisfies, Row.get, h]

theorem mapM_unmatched (rows : List Row) (eqs asg : List (String × SqlValue))
    (h : ∀ r ∈ rows, r.satisfies eqs = false) :
    rows.mapM (fun r => if r.satisfies eqs then r.setAll asg else some r) = some rows := by
  induction rows with
  | nil => rfl
  | cons r rs ih =>
    have hr : r.satisfies eqs = false := h r (List.mem_cons_self _ _)
    have hrs : ∀ x ∈ rs, x.satisfies eqs = false :=
      fun x hx => h x (List.mem_cons_of_mem _ hx)
    rw [List.mapM_cons, ih hrs]
    simp [hr]

theorem filter_unmatched (rows : List Row) (eqs : List (String × SqlValue))
    (h : ∀ r ∈ rows, r.satisfies eqs = false) :
    rows.filter (fun r => r.satisfies eqs) = [] := by
  rw [List.filter_eq_nil_iff]
  intro r hr
  simp [h r hr]

theorem runStmt_update_unmatched (t : Table) (cols : List String) (vals : List SqlValue)
    (id : Int) (hlen : cols.length = vals.length) (hid : ∀ r ∈ t.rows, r.id ≠ id) :
    runStmt t (.update cols [.eqParam "id"] columns) (vals ++ [.int id]) =
      .ok { rows := [], affected := 0, table := t } := by
  have hun : ∀ r ∈ t.rows, r.satisfies [("id", SqlValue.int id)] = false := by
    intro r hr
    rw [satisfies_id]
    simp [hid r hr]
  have hcol : (List.all [("id", SqlValue.int id)] fun p => columns.contains p.1) = true := by
    rfl
  simp only [runStmt, bindCols_zip cols vals [.int id] hlen, bindConds, Option.map,
    hcol, mapM_unmatched t.rows _ _ hun, filter_unmatched t.rows _ hun]
  rfl

theorem patchStorageRaw_unmatched (s : Store) (patch : StoragePatch)
    (hs : s.faults.statement = none)
    (hfield : ∃ p ∈ patchFields patch, p.2.isSome = true)
    (hid : ∀ r ∈ s.table.rows, r.id ≠ patch.ID) :
    (patchStorageRaw FormatError s.freshTx patch).1 =
      .error (.common .NotFound "not found") := by
  have hq : runQuery s.table (patchStatement patch).query (patchStatement patch).args =
      .ok { rows := [], affected := 0, table := s.table } := by
    unfold runQuery
    rw [parse_patch, if_neg (presentColumns_ne_nil patch hfield)]
    simp only
    have hargs : (patchStatement patch).args = presentValues patch ++ [.int patch.ID] :=
      patch_args_eq patch
    rw [hargs]
    exact runStmt_update_unmatched s.table _ _ _ (presentColumns_length patch) hid
  simp [patchStorageRaw, Tx.QueryRowContext, Tx.run, Store.freshTx, hs, hq, Except.map,
    rowScan, FormatError]

/-- C5, amended: for every patch input with at least one field present whose id
matches no row of the table, when the transaction begins and the store runs the
statement, `PatchStorage` fails with an error of kind NotFound, the `no rows`
result of reading the returned row being mapped to NotFound; it returns no
entity, calls no commit and leaves the table unchanged. -/
theorem PatchStorage_unmatched_id_NotFound (s : Store) (patch : StoragePatch)
    (hb : s.faults.beginTx = none) (hs : s.faults.statement = none)
    (hfield : ∃ p ∈ patchFields patch, p.2.isSome = true)
    (hid : ∀ r ∈ s.table.rows, r.id ≠ patch.ID) :
    (∃ e, (PatchStorage FormatError s patch).ret = .error e ∧ e.kind = some .NotFound)
      ∧ FormatError (.sql .ErrNoRows) = .common .NotFound "not found"
      ∧ TxCall.Commit ∉ (PatchStorage FormatError s patch).calls
      ∧ (PatchStorage FormatError s patch).table = s.table := by
  have hraw := patchStorageRaw_unmatched s patch hs hfield hid
  obtain ⟨herr, _⟩ := PatchStorage_run FormatError s patch s.freshTx (beginTx_of_none s hb)
  obtain ⟨h1, h2, h3⟩ := herr _ hraw
  refine ⟨⟨_, h1, rfl⟩, rfl, ?_, h2⟩
  rw [h3]
  simp

/-- Witness of C5, amended: a patch of the bucket of the id 7, which the sample
table does not hold, fails with NotFound. -/
theorem PatchStorage_unmatched_id_NotFound_witness :
    ∃ e, (PatchStorage FormatError sampleStore
        ⟨7, none, none, none, none, none, some "assets-v2", none⟩).ret = .error e
      ∧ e.kind = some .NotFound :=
  (PatchStorage_unmatched_id_NotFound sampleStore
    ⟨7, none, none, none, none, none, some "assets-v2", none⟩ rfl rfl
    ⟨("bucket", some "assets-v2"), by simp [patchFields], rfl⟩ (by decide)).1

set_option maxRecDepth 100000 in
/-- Counterexample to C5 as stated: the patch with the id 7 and no field
present, on the sample table, which holds no row of id 7: the statement has an
empty SET clause, the store rejects it, and the error returned is of the
generic kind, not NotFound. -/
theorem PatchStorage_empty_patch_not_NotFound :
    (∀ r ∈ sampleStore.table.rows, r.id ≠ 7)
      ∧ (PatchStorage FormatError sampleStore ⟨7, none, none, none, none, none, none, none⟩).ret
          = .error (.common .Internal "syntax error")
      ∧ ¬ ∃ e, (PatchStorage FormatError sampleStore
            ⟨7, none, none, none, none, none, none, none⟩).ret = .error e
          ∧ e.kind = some .NotFound := by
  have h : (PatchStorage FormatError sampleStore
      ⟨7, none, none, none, none, none, none, none⟩).ret
        = .error (.common .Internal "syntax error") := rfl
  refine ⟨by decide, h, ?_⟩
  rintro ⟨e, he, hk⟩
  rw [h] at he
  cases he
  cases hk

/-! ## Delete -/

theorem deleteStorage_of_exec (fmt : GoError → GoError) (tx tx1 : Tx) (delete : StorageDelete)
    (result : Result)
    (hx : tx.ExecContext (deleteStatement delete).query (deleteStatement delete).args
      = (.ok result, tx1)) :
    (deleteStorage fmt tx delete).1 =
      if result.RowsAffected.1 = 0 then some (.common .NotFound "storage not found")
      else none := by
  unfold deleteStorage
  simp only [hx]
  split <;> rfl

/-- C4: whenever the DELETE statement runs without a store error,
`DeleteStorage` returns an error of kind NotFound exactly when the number of
affected rows the store reports is zero; the NotFound of `deleteStorage` is
unchanged by `FormatError`; and when the number is zero no commit is called and
the table is left as it was. -/
theorem DeleteStorage_NotFound_iff_no_row_affected (s : Store) (delete : StorageDelete)
    (tx tx1 : Tx) (result : Result) (hb : s.BeginTx = .ok tx)
    (hx : tx.ExecContext (deleteStatement delete).query (deleteStatement delete).args
      = (.ok result, tx1)) :
    ((∃ e, (DeleteStorage FormatError s delete).ret = .error e ∧ e.kind = some .NotFound)
        ↔ result.RowsAffected.1 = 0)
      ∧ FormatError (.common .NotFound "storage not found")
          = .common .NotFound "storage not found"
      ∧ (result.RowsAffected.1 = 0 →
          TxCall.Commit ∉ (DeleteStorage FormatError s delete).calls
            ∧ (DeleteStorage FormatError s delete).table = s.table) := by
  have hd := deleteStorage_of_exec FormatError tx tx1 delete result hx
  obtain ⟨herr, hok⟩ := DeleteStorage_run FormatError s delete tx hb
  by_cases hz : result.RowsAffected.1 = 0
  · rw [if_pos hz] at hd
    obtain ⟨h1, h2, h3⟩ := herr _ hd
    refine ⟨⟨fun _ => hz, fun _ => ⟨_, h1, rfl⟩⟩, rfl, fun _ => ⟨?_, h2⟩⟩
    rw [h3]
    simp
  · rw [if_neg hz] at hd
    refine ⟨⟨?_, fun h => (hz h).elim⟩, rfl, fun h => (hz h).elim⟩
    rintro ⟨e, he, hk⟩
    cases hc : s.faults.commit with
    | some m =>
      rw [((hok hd).1 m hc).1] at he
      cases he
      cases hk
    | none =>
      rw [((hok hd).2 hc).1] at he
      cases he

set_option maxRecDepth 100000 in
/-- Witness of C4: deleting the id 7, which the sample table does not hold,
affects no row and returns NotFound, without a commit, the table unchanged. -/
theorem DeleteStorage_NotFound_iff_no_row_affected_witness :
    (∃ e, (DeleteStorage FormatError sampleStore ⟨7⟩).ret = .error e
        ∧ e.kind = some .NotFound)
      ∧ TxCall.Commit ∉ (DeleteStorage FormatError sampleStore ⟨7⟩).calls
      ∧ (DeleteStorage FormatError sampleStore ⟨7⟩).table = sampleStore.table :=
  have h := DeleteStorage_NotFound_iff_no_row_affected sampleStore ⟨7⟩ sampleStore.freshTx
    (sampleStore.freshTx.ExecContext (deleteStatement ⟨7⟩).query (deleteStatement ⟨7⟩).args).2
    ⟨(0, none)⟩ rfl rfl
  ⟨h.1.mpr rfl, h.2.2 rfl⟩

/-! ## Find list -/

set_option maxRecDepth 100000 in
theorem parse_find (find : StorageFind) :
    parseStmt (tokenize (findStatement find).query) =
      some (.select columns (findConds find)) := by
  obtain ⟨a, b⟩ := find
  cases a <;> cases b <;> rfl

theorem mapM_project (l : List Row) :
    l.mapM (fun r => r.project columns) = some (l.map Row.values) := by
  induction l with
  | nil => rfl
  | cons r rs ih =>
    rw [List.mapM_cons, ih]
    rfl

theorem satisfies_admits (find : StorageFind) :
    ∃ eqs, bindConds (findConds find) (findStatement find).args = some (eqs, [])
      ∧ (eqs.all (fun p => columns.contains p.1)) = true
      ∧ (fun r : Row => r.satisfies eqs) = find.admits := by
  obtain ⟨a, b⟩ := find
  cases a with
  | none =>
    cases b with
    | none =>
      refine ⟨[], rfl, rfl, ?_⟩
      funext r
      simp [Row.satisfies, StorageFind.admits]
    | some n =>
      refine ⟨[("name", .text n)], rfl, rfl, ?_⟩
      funext r
      by_cases h : r.name = n <;> simp [Row.satisfies, StorageFind.admits, Row.get, h]
  | some i =>
    cases b with
    | none =>
      refine ⟨[("id", .int i)], rfl, rfl, ?_⟩
      funext r
      by_cases h : r.id = i <;> simp [Row.satisfies, StorageFind.admits, Row.get, h]
    | some n =>
      refine ⟨[("id", .int i), ("name", .text n)], rfl, rfl, ?_⟩
      funext r
      by_cases h : r.id = i <;> by_cases h2 : r.name = n <;>
        simp [Row.satisfies, StorageFind.admits, Row.get, h, h2]

theorem runQuery_find (t : Table) (find : StorageFind) :
    runQuery t (findStatement find).query (findStatement find).args =
      .ok { rows := (selectedRows t find).map Row.values, affected := 0, table := t } := by
  obtain ⟨eqs, hbind, hcols, hsat⟩ := satisfies_admits find
  unfold runQuery
  rw [parse_find]
  simp only [runStmt, hbind, hcols, hsat, mapM_project]
  rfl

theorem scanLoop_values (fmt : GoError → GoError) (faults : Faults)
    (hscan : faults.scan = none) (l : List Row) (i : Nat) (acc : List storageRaw) :
    scanLoop fmt faults i (l.map Row.values) acc = .ok (acc ++ l.map Row.toRaw) := by
  induction l generalizing i acc with
  | nil => simp [scanLoop]
  | cons r rs ih =>
    have hr : scanAt faults i r.values = .ok r.toRaw := by
      simp [scanAt, hscan, Row.values, scanStorageRaw, Row.toRaw]
    simp [scanLoop, hr, ih]

theorem findStorageRawList_ok (fmt : GoError → GoError) (s : Store) (find : StorageFind)
    (hs : s.faults.statement = none) (hscan : s.faults.scan = none)
    (hrows : s.faults.rowsErr = none) :
    (findStorageRawList fmt s.freshTx find).1 =
      .ok ((selectedRows s.table find).map Row.toRaw) := by
  simp [findStorageRawList, Tx.QueryContext, Tx.run, Store.freshTx, hs, runQuery_find,
    Except.map, scanLoop_values fmt s.faults hscan, hrows]

theorem selectedRows_pairwise (t : Table) (find : StorageFind) (hwf : t.WellFormed) :
    (selectedRows t find).Pairwise (fun a b => a.id > b.id) := by
  have hsorted : (selectedRows t find).Pairwise idDesc :=
    List.sorted_insertionSort idDesc _
  have hperm : (selectedRows t find).Perm (t.rows.filter find.admits) :=
    List.perm_insertionSort idDesc _
  have hnd : ((t.rows.filter find.admits).map Row.id).Nodup :=
    hwf.1.sublist ((List.filter_sublist t.rows).map Row.id)
  have hnd2 : ((selectedRows t find).map Row.id).Nodup :=
    (hperm.map Row.id).nodup_iff.mpr hnd
  have hne : (selectedRows t find).Pairwise (fun a b => a.id ≠ b.id) := by
    rw [List.Nodup, List.pairwise_map] at hnd2
    exact hnd2
  exact (hsorted.and hne).imp (fun h => lt_of_le_of_ne h.1 (Ne.symm h.2))


/-- C9: when the transaction begins and the store neither fails the query nor
the reading of its rows, `FindStorageList` returns without error the entities
of exactly the rows that satisfy the present filters, each converted field for
field, in strictly descending order of id; the conversion loop keeps the length
and the order of the rows the query returned; no matching row gives the empty
list; and the table is unchanged. -/
theorem FindStorageList_matching_rows_descending (fmt : GoError → GoError) (s : Store)
    (find : StorageFind) (hb : s.faults.beginTx = none) (hs : s.faults.statement = none)
    (hscan : s.faults.scan = none) (hrows : s.faults.rowsErr = none)
    (hwf : s.table.WellFormed) :
    ∃ list, (FindStorageList fmt s find).ret = .ok list
      ∧ list.Perm ((s.table.rows.filter find.admits).map Row.toStorage)
      ∧ (list.map Storage.ID).Pairwise (fun a b => a > b)
      ∧ (∃ raws, (findStorageRawList fmt s.freshTx find).1 = .ok raws
          ∧ list = raws.map storageRaw.toStorage ∧ list.length = raws.length)
      ∧ (s.table.rows.filter find.admits = [] → list = [])
      ∧ (FindStorageList fmt s find).table = s.table := by
  have hraw := findStorageRawList_ok fmt s find hs hscan hrows
  obtain ⟨ht, _, _, hok⟩ := FindStorageList_run fmt s find s.freshTx (beginTx_of_none s hb)
  have hconv : ((selectedRows s.table find).map Row.toRaw).map storageRaw.toStorage
      = (selectedRows s.table find).map Row.toStorage := by
    rw [List.map_map]
    rfl
  refine ⟨(selectedRows s.table find).map Row.toStorage, ?_, ?_, ?_, ?_, ?_, ht⟩
  · rw [hok _ hraw, hconv]
  · exact (List.perm_insertionSort idDesc _).map Row.toStorage
  · rw [List.map_map, List.pairwise_map]
    exact selectedRows_pairwise s.table find hwf
  · exact ⟨_, hraw, hconv.symm, by simp⟩
  · intro hnil
    simp [selectedRows, hnil]

theorem sampleTable_wellFormed : sampleTable.WellFormed := by
  unfold Table.WellFormed
  decide

set_option maxRecDepth 100000 in
/-- Witness of C9: on the sample table, whose ids are 1, 2 and 3, the
unfiltered list is that of the ids 3, 2, 1. -/
theorem FindStorageList_matching_rows_descending_witness :
    (∃ list, (FindStorageList FormatError sampleStore ⟨none, none⟩).ret = .ok list
        ∧ (list.map Storage.ID).Pairwise (fun a b => a > b))
      ∧ (FindStorageList FormatError sampleStore ⟨none, none⟩).ret.toOption.map
          (List.map Storage.ID) = some [3, 2, 1] :=
  ⟨(FindStorageList_matching_rows_descending FormatError sampleStore ⟨none, none⟩ rfl rfl rfl
      rfl sampleTable_wellFormed).imp (fun _ h => ⟨h.1, h.2.2.1⟩), rfl⟩

end StorageRepo
